import Mathlib

/-!
Verification development for the ElasticBERT early-exit model
(`finetune-dynamic/models/modeling_elasticbert_kernel.py`).

The Python module is embedded shallowly:
* tensors and transformer blocks are abstracted as values of opaque types and
  opaque functions (the claims under study only depend on control flow, list
  bookkeeping and the real-valued loss formulas);
* Python `None` is modelled by `Option`;
* fallible operations (list indexing, division, `torch.stack` on an empty
  list, calling `None`) return `Except PyErr`;
* `float("inf")` entries of the `kernel_similarity` list are modelled as
  `none`, and similarity values read from it as `some q` with `q : ℚ`
  (the gating logic only ever compares these scalars);
* the real-valued loss functions (CKA, cross entropy, NT-Xent, KL
  distillation) are embedded over `ℝ` with exact arithmetic.
-/

set_option maxHeartbeats 1000000
set_option linter.unusedSectionVars false

deriving instance DecidableEq for Except

/-- Python exceptions raised by the modelled code paths. -/
inductive PyErr where
  | valueError : String → PyErr
  | typeError : PyErr
  | indexError : PyErr
  | assertionError : PyErr
  | zeroDivisionError : PyErr
  | runtimeError : PyErr
  deriving DecidableEq, Repr

/-- Python list subscript `l[i]` for a non-negative index: raises `IndexError`
when out of range. -/
def pyGet {α : Type} (l : List α) (i : ℕ) : Except PyErr α :=
  if h : i < l.length then .ok (l.get ⟨i, h⟩) else .error .indexError

/-- Python `a / b` on rationals: raises `ZeroDivisionError` when `b = 0`. -/
def pyDiv (a b : ℚ) : Except PyErr ℚ :=
  if b = 0 then .error .zeroDivisionError else .ok (a / b)

/-- Python `for i in is: body` where the body may raise. -/
def pyForM {σ : Type} (body : ℕ → σ → Except PyErr σ) : List ℕ → σ → Except PyErr σ
  | [], s => .ok s
  | i :: is, s => do pyForM body is (← body i s)

/-- Python `for i in is: body` with `break`: the body returns the updated
state and whether `break` was executed. -/
def pyLoopBreak {σ : Type} (body : ℕ → σ → σ × Bool) : List ℕ → σ → σ
  | [], s => s
  | i :: is, s =>
    let r := body i s
    if r.2 then r.1 else pyLoopBreak body is r.1

/-- Python `for i in is: body` with `break`, where the body may raise. -/
def pyForBreakM {σ : Type} (body : ℕ → σ → Except PyErr (σ × Bool)) :
    List ℕ → σ → Except PyErr σ
  | [], s => .ok s
  | i :: is, s => do
    let r ← body i s
    if r.2 then .ok r.1 else pyForBreakM body is r.1

/-- Python read `l[j]` on the `kernel_similarity` list, for a possibly
negative index `j` (Python wraps `-1` to `len l - 1`).  Entries still holding
their `float("inf")` initial value are `none`; out-of-range reads also
return `none` (in the modelled loop such reads only occur under a guard that
discards the value, mirroring Python's short-circuit evaluation). -/
def pyNegGet (l : List (Option ℚ)) (j : ℤ) : Option ℚ :=
  let idx : ℤ := if j < 0 then (l.length : ℤ) + j else j
  if h : 0 ≤ idx ∧ idx.toNat < l.length then l.get ⟨idx.toNat, h.2⟩ else none

theorem exceptBind_ok {ε α β : Type} (a : α) (f : α → Except ε β) :
    ((Except.ok a : Except ε α) >>= f) = f a := rfl

theorem exceptBind_error {ε α β : Type} (e : ε) (f : α → Except ε β) :
    ((Except.error e : Except ε α) >>= f) = .error e := rfl

/-- The mutable inference statistics of `ElasticBertModel`
(`__init__`, lines 628-630). -/
structure Stats where
  inference_instances_num : ℕ
  inference_layers_num : ℕ
  exiting_layer_every_ins : List ℕ
  deriving DecidableEq, Repr

namespace ElasticBertModel

/-- `ElasticBertModel.reset_stats` (lines 635-638). -/
def reset_stats (_s : Stats) : Stats := ⟨0, 0, []⟩

/-- `ElasticBertModel.log_stats` (lines 643-649): computes
`avg = inference_layers_num / inference_instances_num` and returns
`num_hidden_layers / avg`; each Python division raises `ZeroDivisionError`
on a zero denominator.  The `print` side effect is dropped. -/
def log_stats (num_hidden_layers : ℕ) (s : Stats) : Except PyErr ℚ := do
  let avg_inf_layers ← pyDiv (s.inference_layers_num : ℚ) (s.inference_instances_num : ℚ)
  let speed_up ← pyDiv (num_hidden_layers : ℚ) avg_inf_layers
  .ok speed_up

/-- Input resolution at the top of `ElasticBertModel.forward`
(lines 728-737): exactly one of `input_ids` / `inputs_embeds` must be
supplied, otherwise a `ValueError` is raised. -/
def resolveInputs {Ids Emb : Type} (input_ids : Option Ids) (inputs_embeds : Option Emb) :
    Except PyErr (Ids ⊕ Emb) :=
  match input_ids, inputs_embeds with
  | some _, some _ =>
      .error (.valueError "You cannot specify both input_ids and inputs_embeds at the same time")
  | some a, none => .ok (.inl a)
  | none, some b => .ok (.inr b)
  | none, none => .error (.valueError "You have to specify either input_ids or inputs_embeds")

end ElasticBertModel

/-- `GradientRescaleFunction` / `gradient_rescale` (lines 104-123): the
forward pass returns its input unchanged; the weight only rescales
gradients, which the value-level embedding does not track. -/
def gradient_rescale {H : Type} (input : H) (_weight : ℚ) : H := input

section Model

variable {H L P : Type} [Inhabited H] [Inhabited L] [Inhabited P]

/-- Configuration and abstract sub-modules of the model.  The transformer
block, pooler denses, classifier heads, embedding lookup and dropout are
standard building blocks treated as opaque functions; `cka` is the scalar
value `self.linear_CKA(x, y).item()` computed in the gated loop. -/
structure ModelParams (H L P : Type) where
  num_hidden_layers : ℕ
  num_output_layers : ℕ
  max_output_layers : ℕ
  layer : ℕ → H → H
  pool : ℕ → H → P
  classifier : ℕ → P → L
  cka : H → H → ℚ
  output_dropout : P → P

namespace ElasticBertEncoder

/-- `self.start_output_layer = num_hidden_layers - num_output_layers`
(line 416; only meaningful when `num_output_layers > 1`). -/
def start_output_layer (p : ModelParams H L P) : ℕ :=
  p.num_hidden_layers - p.num_output_layers

/-- The `self.pooler` module list (lines 415-426, `add_pooling_layer=True`):
a list of length `max_output_layers` holding a pooler at the eligible
indices and `None` elsewhere. -/
def poolers (p : ModelParams H L P) : List (Option (H → P)) :=
  if p.num_output_layers > 1 then
    (List.range p.max_output_layers).map (fun i =>
      if start_output_layer p ≤ i ∧ i ≤ p.num_hidden_layers - 1 then some (p.pool i) else none)
  else
    (List.range p.max_output_layers).map (fun i =>
      if i = p.num_hidden_layers - 1 then some (p.pool i) else none)

/-- Loop state of `ElasticBertEncoder.forward` (lines 435-441).  The
`applied` field is ghost instrumentation recording which layer indices the
loop has applied `self.layer[i]` to. -/
structure EncState (H P : Type) where
  hidden_states : H
  output_sequence_outputs : Option (List H)
  output_pooled_outputs : Option (List P)
  final_pooled_output : Option P
  applied : List ℕ

/-- One iteration of the layer loop of `ElasticBertEncoder.forward`
(lines 442-488, `add_pooling_layer=True`, attention/hidden-state outputs
disabled as per the config defaults).  Calling a `None` entry of
`self.pooler` raises `TypeError`. -/
def body (p : ModelParams H L P) (training : Bool) (i : ℕ) (s : EncState H P) :
    Except PyErr (EncState H P) := do
  let applied := s.applied ++ [i]
  let hidden0 := p.layer i s.hidden_states
  if p.num_output_layers > 1 then
    if start_output_layer p ≤ i then
      let h1 := if training then gradient_rescale hidden0 (1 / ((p.num_hidden_layers : ℚ) - i)) else hidden0
      let seqs := s.output_sequence_outputs.getD [] ++ [h1]
      let poolerOpt ← pyGet (poolers p) (i - start_output_layer p)
      match poolerOpt with
      | none => .error .typeError
      | some f =>
        let pooleds := s.output_pooled_outputs.getD [] ++ [f h1]
        let h2 := if training then gradient_rescale h1 ((p.num_hidden_layers : ℚ) - i - 1) else h1
        .ok ⟨h2, some seqs, some pooleds, s.final_pooled_output, applied⟩
    else
      .ok ⟨hidden0, s.output_sequence_outputs, s.output_pooled_outputs, s.final_pooled_output, applied⟩
  else if p.num_output_layers = 1 ∧ i = p.num_hidden_layers - 1 then
    let poolerOpt ← pyGet (poolers p) (p.num_hidden_layers - 1)
    match poolerOpt with
    | none => .error .typeError
    | some f => .ok ⟨hidden0, s.output_sequence_outputs, s.output_pooled_outputs, some (f hidden0), applied⟩
  else
    .ok ⟨hidden0, s.output_sequence_outputs, s.output_pooled_outputs, s.final_pooled_output, applied⟩

/-- One component of the tuple returned by `ElasticBertEncoder.forward`. -/
inductive Comp (H P : Type) where
  | hid : H → Comp H P
  | seqs : List H → Comp H P
  | pooleds : List P → Comp H P
  | finalPooled : P → Comp H P
  deriving DecidableEq

/-- Return value of `ElasticBertEncoder.forward`: the filtered tuple of
non-`None` components (lines 490-501) plus the ghost `applied` trace. -/
structure EncOut (H P : Type) where
  comps : List (Comp H P)
  applied : List ℕ
  deriving DecidableEq

/-- `ElasticBertEncoder.forward` (lines 428-501): runs every one of the
`num_hidden_layers` transformer layers, collecting the per-exit sequence
and pooled outputs. -/
def forward (p : ModelParams H L P) (training : Bool) (h0 : H) :
    Except PyErr (EncOut H P) := do
  let init : EncState H P :=
    ⟨h0, if p.num_output_layers > 1 then some [] else none,
         if p.num_output_layers > 1 then some [] else none, none, []⟩
  let s ← pyForM (body p training) (List.range p.num_hidden_layers) init
  .ok ⟨[some (Comp.hid s.hidden_states), s.output_sequence_outputs.map Comp.seqs,
        s.output_pooled_outputs.map Comp.pooleds,
        s.final_pooled_output.map Comp.finalPooled].reduceOption, s.applied⟩

end ElasticBertEncoder

namespace ElasticBertModel

/-- Loop state of the gated-inference block of `ElasticBertModel.forward`
(lines 798-844).  `exits` records the values appended to
`self.exiting_layer_every_ins` by the `break` branch. -/
structure GatedState (H L : Type) where
  middle_result : Option L
  first_encoder : Option H
  calculated_layer_num : ℕ
  kernel_counter : ℕ
  kernel_similarity : List (Option ℚ)
  exits : List ℕ
  deriving DecidableEq

/-- Initial gated-loop state (lines 798-801): `middle_result = None`,
counters zero, `kernel_similarity` a list of `num_hidden_layers - 1`
`float("inf")` entries. -/
def gatedInit (H L : Type) (num_hidden_layers : ℕ) : GatedState H L :=
  ⟨none, none, 0, 0, List.replicate (num_hidden_layers - 1) none, []⟩

/-- One iteration of the gated-inference loop (lines 810-841), without the
exit test, over abstract per-layer outputs `enc i` and logits `lgts i`.
Mirrors the Python body: bump `calculated_layer_num`, store the similarity
of the previous and current layer outputs at `kernel_similarity[i-1]`
(for `i ≥ 1`), evaluate the stability condition
`abs(kernel_similarity[i-2] - kernel_similarity[i-1]) < 0.06` guarded by
`middle_result is not None`, and update `kernel_counter` and
`middle_result`. -/
def gatedStepCore [Inhabited H] (cka : H → H → ℚ) (enc : ℕ → H) (lgts : ℕ → L)
    (i : ℕ) (s : GatedState H L) : GatedState H L :=
  let calculated := s.calculated_layer_num + 1
  let cur := enc i
  let logits := lgts i
  let ks := if i = 0 then s.kernel_similarity
            else s.kernel_similarity.set (i - 1) (some (cka (s.first_encoder.getD default) cur))
  let cond : Bool :=
    match s.middle_result with
    | none => false
    | some _ =>
      match pyNegGet ks ((i : ℤ) - 2), pyNegGet ks ((i : ℤ) - 1) with
      | some a, some b => decide (|a - b| < 3 / 50)
      | _, _ => false
  let counter := if cond then s.kernel_counter + 1 else 0
  ⟨some logits, some cur, calculated, counter, ks, s.exits⟩

/-- One iteration of the gated loop including the exit test
`kernel_counter == infer_threshold` (lines 842-844): on exit, append
`i + 1` to the exit log and `break`. -/
def gatedStep [Inhabited H] (cka : H → H → ℚ) (enc : ℕ → H) (lgts : ℕ → L)
    (infer_threshold : ℕ) (i : ℕ) (s : GatedState H L) : GatedState H L × Bool :=
  let s1 := gatedStepCore cka enc lgts i s
  if s1.kernel_counter = infer_threshold then
    ({ s1 with exits := s1.exits ++ [i + 1] }, true)
  else (s1, false)

/-- The gated-loop body as executed in `ElasticBertModel.forward`
(lines 810-844): per-layer outputs, pooled outputs and classifier heads are
read from the lists produced by the encoder, which can raise `IndexError`. -/
def gatedBodyM [Inhabited H] (cka : H → H → ℚ) (encoderL : List H) (pooledL : List P)
    (output_layers : List (P → L)) (infer_threshold : ℕ) (i : ℕ) (s : GatedState H L) :
    Except PyErr (GatedState H L × Bool) := do
  let calculated := s.calculated_layer_num + 1
  let encoder_outputs ← pyGet encoderL i
  let pooled_output ← pyGet pooledL i
  let head ← pyGet output_layers i
  let logits := head pooled_output
  let ks := if i = 0 then s.kernel_similarity
            else s.kernel_similarity.set (i - 1) (some (cka (s.first_encoder.getD default) encoder_outputs))
  let cond : Bool :=
    match s.middle_result with
    | none => false
    | some _ =>
      match pyNegGet ks ((i : ℤ) - 2), pyNegGet ks ((i : ℤ) - 1) with
      | some a, some b => decide (|a - b| < 3 / 50)
      | _, _ => false
  let counter := if cond then s.kernel_counter + 1 else 0
  let s1 : GatedState H L := ⟨some logits, some encoder_outputs, calculated, counter, ks, s.exits⟩
  if counter = infer_threshold then .ok ({ s1 with exits := s1.exits ++ [i + 1] }, true)
  else .ok (s1, false)

/-- The gated-inference block of `ElasticBertModel.forward` (lines 797-851):
run the loop over the precomputed per-layer outputs, then update the
statistics — `inference_layers_num += calculated_layer_num`,
`inference_instances_num += 1`, and if the loop ended without reaching the
threshold, record the final layer as the exit layer. -/
def gatedBranch [Inhabited H] (cka : H → H → ℚ) (num_hidden_layers infer_threshold : ℕ)
    (encoderL : List H) (pooledL : List P) (output_layers : List (P → L)) (st : Stats) :
    Except PyErr (List P × List (Option L) × Stats) := do
  let s ← pyForBreakM (gatedBodyM cka encoderL pooledL output_layers infer_threshold)
      (List.range num_hidden_layers) (gatedInit H L num_hidden_layers)
  let res : List (Option L) := [s.middle_result]
  let st' : Stats :=
    ⟨st.inference_instances_num + 1, st.inference_layers_num + s.calculated_layer_num,
     st.exiting_layer_every_ins ++ s.exits ++
       (if s.kernel_counter ≠ infer_threshold then [num_hidden_layers] else [])⟩
  .ok (pooledL, res, st')

end ElasticBertModel

end Model

section Forward

variable {H L P : Type} [Inhabited H] [Inhabited L] [Inhabited P]

namespace ElasticBertModel

/-- Return value of `ElasticBertModel.forward` (`return pooled, res`,
line 852), together with the ghost trace of layer indices the encoder
applied during the call. -/
structure ForwardOut (L P : Type) where
  pooled : List P
  res : List (Option L)
  stats : Stats
  layersApplied : List ℕ
  deriving DecidableEq

/-- Training branch of `ElasticBertModel.forward` (lines 757-784): run the
full encoder once, then loop `for i in range(num_hidden_layers)` producing
logits from `output_layers[i]` on the dropped-out pooled output, and assert
that exactly `num_output_layers` logit sets were produced. -/
def trainingBranch (p : ModelParams H L P) (output_layers : List (P → L))
    (embedding_output : H) (st : Stats) : Except PyErr (ForwardOut L P) := do
  let encoder_out ← ElasticBertEncoder.forward p true embedding_output
  let c1 ← pyGet encoder_out.comps 1
  let c2 ← pyGet encoder_out.comps 2
  match c1, c2 with
  | .seqs encoderL, .pooleds pooledL =>
    let res ← pyForM (fun i res => do
        let encoder_outputs ← pyGet encoderL i
        let pooled_output ← pyGet pooledL i
        let head ← pyGet output_layers i
        let logits := head (p.output_dropout pooled_output)
        let _ := gradient_rescale encoder_outputs ((p.num_hidden_layers : ℚ) - i - 1)
        .ok (res ++ [some logits])) (List.range p.num_hidden_layers) ([] : List (Option L))
    if res.length = p.num_output_layers then
      .ok ⟨pooledL, res, st, encoder_out.applied⟩
    else .error .assertionError
  | _, _ => .error .typeError

/-- Plain-evaluation branch of `ElasticBertModel.forward` (lines 785-796):
run the full encoder, assert the pooled-output count matches the head
count, and produce one logit set per exit. -/
def evalBranch (p : ModelParams H L P) (output_layers : List (P → L))
    (embedding_output : H) (st : Stats) : Except PyErr (ForwardOut L P) := do
  let encoder_out ← ElasticBertEncoder.forward p false embedding_output
  let c1 ← pyGet encoder_out.comps 1
  let c2 ← pyGet encoder_out.comps 2
  match c1, c2 with
  | .seqs _, .pooleds pooledL =>
    if pooledL.length = output_layers.length then
      let res ← pyForM (fun i res => do
          let head ← pyGet output_layers i
          .ok (res ++ [some (head (pooledL.getD i default))])) (List.range pooledL.length)
          ([] : List (Option L))
      .ok ⟨pooledL, res, st, encoder_out.applied⟩
    else .error .assertionError
  | _, _ => .error .typeError

/-- Gated-inference branch of `ElasticBertModel.forward` (lines 797-851):
run the full encoder once up front, then run the early-exit loop over its
precomputed outputs. -/
def highwayBranch (p : ModelParams H L P) (output_layers : List (P → L))
    (infer_threshold : ℕ) (embedding_output : H) (st : Stats) :
    Except PyErr (ForwardOut L P) := do
  let encoder_out ← ElasticBertEncoder.forward p false embedding_output
  let c1 ← pyGet encoder_out.comps 1
  let c2 ← pyGet encoder_out.comps 2
  match c1, c2 with
  | .seqs encoderL, .pooleds pooledL =>
    let r ← gatedBranch p.cka p.num_hidden_layers infer_threshold encoderL pooledL
      output_layers st
    .ok ⟨r.1, r.2.1, r.2.2, encoder_out.applied⟩
  | _, _ => .error .typeError

/-- `ElasticBertModel.forward` (lines 710-852), as called from
`ElasticBertForSequenceClassification.forward` with `output_layers =
self.classifiers` (one linear head per output layer, line 872).  `embedF`
abstracts the embedding module applied to whichever input was supplied;
mask/device plumbing is dropped. -/
def forward {Ids Emb : Type} (p : ModelParams H L P) (embedF : Ids ⊕ Emb → H)
    (training eval_highway : Bool) (infer_threshold : ℕ)
    (input_ids : Option Ids) (inputs_embeds : Option Emb) (st : Stats) :
    Except PyErr (ForwardOut L P) := do
  let x ← resolveInputs input_ids inputs_embeds
  let embedding_output := embedF x
  let output_layers : List (P → L) := (List.range p.num_output_layers).map p.classifier
  if training then
    trainingBranch p output_layers embedding_output st
  else if !eval_highway then
    evalBranch p output_layers embedding_output st
  else
    highwayBranch p output_layers infer_threshold embedding_output st

end ElasticBertModel

end Forward

section GatedAnalysis

namespace ElasticBertModel

variable {H L : Type} [Inhabited H] [Inhabited L]
variable (cka : H → H → ℚ) (enc : ℕ → H) (lgts : ℕ → L)

/-- State of the gated loop after `k` iterations when the exit test never
fires (the loop body does not depend on `infer_threshold`, so any actual
run agrees with this sequence up to its breaking point). -/
def gatedRun (N : ℕ) : ℕ → GatedState H L
  | 0 => gatedInit H L N
  | k + 1 => gatedStepCore cka enc lgts k (gatedRun N k)

/-- Value of `kernel_counter` after `k` untested loop iterations. -/
def counterAt (N k : ℕ) : ℕ := (gatedRun cka enc lgts N k).kernel_counter

theorem gatedRun_succ (N k : ℕ) :
    gatedRun cka enc lgts N (k + 1) = gatedStepCore cka enc lgts k (gatedRun cka enc lgts N k) := rfl

theorem gatedRun_calculated (N : ℕ) :
    ∀ k, (gatedRun cka enc lgts N k).calculated_layer_num = k := by
  intro k
  induction k with
  | zero => rfl
  | succ k ih => simp [gatedRun_succ, gatedStepCore, ih]

theorem gatedRun_exits (N : ℕ) : ∀ k, (gatedRun cka enc lgts N k).exits = [] := by
  intro k
  induction k with
  | zero => rfl
  | succ k ih => simp [gatedRun_succ, gatedStepCore, ih]

theorem counterAt_zero (N : ℕ) : counterAt cka enc lgts N 0 = 0 := rfl

theorem counterAt_one (N : ℕ) : counterAt cka enc lgts N 1 = 0 := by
  simp [counterAt, gatedRun_succ, gatedRun, gatedStepCore, gatedInit]

theorem counterAt_succ_le (N k : ℕ) :
    counterAt cka enc lgts N (k + 1) ≤ counterAt cka enc lgts N k + 1 := by
  unfold counterAt
  rw [gatedRun_succ]
  unfold gatedStepCore
  dsimp only
  repeat' split
  all_goals omega

/-- Discrete intermediate-value property: the counter starts at 0 and grows
by at most 1 per step, so it passes through every value below any value it
attains. -/
theorem counterAt_ivt (N : ℕ) :
    ∀ j t, t ≤ counterAt cka enc lgts N j → ∃ i, i ≤ j ∧ counterAt cka enc lgts N i = t := by
  intro j
  induction j with
  | zero =>
    intro t ht
    have h0 : counterAt cka enc lgts N 0 = 0 := rfl
    exact ⟨0, le_refl 0, by omega⟩
  | succ j ih =>
    intro t ht
    rcases eq_or_lt_of_le ht with heq | hlt
    · exact ⟨j + 1, le_refl _, heq.symm⟩
    · have h1 : t ≤ counterAt cka enc lgts N j := by
        have := counterAt_succ_le cka enc lgts N j
        omega
      obtain ⟨i, hi, hit⟩ := ih t h1
      exact ⟨i, Nat.le_succ_of_le hi, hit⟩

instance gatedHitDec (N t : ℕ) :
    Decidable (∃ k, k < N ∧ counterAt cka enc lgts N (k + 1) = t) :=
  decidable_of_iff (∃ k ∈ Finset.range N, counterAt cka enc lgts N (k + 1) = t)
    (by simp [Finset.mem_range])

/-- The exit layer recorded by the gated loop: one past the first iteration
whose post-update counter equals the threshold, or the final layer when the
counter never reaches the threshold. -/
def exitLayerSpec (N t : ℕ) : ℕ :=
  if h : ∃ k, k < N ∧ counterAt cka enc lgts N (k + 1) = t then Nat.find h + 1 else N

theorem exitLayerSpec_le (N t : ℕ) : exitLayerSpec cka enc lgts N t ≤ N := by
  unfold exitLayerSpec
  split
  · next h => have := (Nat.find_spec h).1; omega
  · exact le_refl N

theorem exitLayerSpec_pos (N t : ℕ) (hN : 1 ≤ N) : 1 ≤ exitLayerSpec cka enc lgts N t := by
  unfold exitLayerSpec
  split
  · omega
  · omega

/-- With threshold 0 the loop exits at the very first iteration: at `i = 0`
the counter is reset to 0 (`middle_result` is still `None`), which equals
the threshold. -/
theorem exitLayerSpec_threshold_zero (N : ℕ) (hN : 1 ≤ N) :
    exitLayerSpec cka enc lgts N 0 = 1 := by
  have h0 : (0 : ℕ) < N ∧ counterAt cka enc lgts N (0 + 1) = 0 :=
    ⟨hN, counterAt_one cka enc lgts N⟩
  have hex : ∃ k, k < N ∧ counterAt cka enc lgts N (k + 1) = 0 := ⟨0, h0⟩
  unfold exitLayerSpec
  rw [dif_pos hex]
  have hf : Nat.find hex ≤ 0 := Nat.find_le h0
  omega

/-- The recorded exit layer is monotone in the threshold. -/
theorem exitLayerSpec_mono (N t1 t2 : ℕ) (hN : 1 ≤ N) (ht : t1 ≤ t2) :
    exitLayerSpec cka enc lgts N t1 ≤ exitLayerSpec cka enc lgts N t2 := by
  by_cases h2 : ∃ k, k < N ∧ counterAt cka enc lgts N (k + 1) = t2
  · obtain ⟨hk2N, hk2⟩ := Nat.find_spec h2
    obtain ⟨i, hij, hi⟩ := counterAt_ivt cka enc lgts N (Nat.find h2 + 1) t1 (by omega)
    rcases Nat.eq_zero_or_pos i with hi0 | hipos
    · have ht1 : t1 = 0 := by
        subst hi0
        have h0 : counterAt cka enc lgts N 0 = 0 := rfl
        omega
      have h1 : ∃ k, k < N ∧ counterAt cka enc lgts N (k + 1) = t1 :=
        ⟨0, hN, by rw [ht1]; exact counterAt_one cka enc lgts N⟩
      have hf1 : Nat.find h1 ≤ 0 := Nat.find_le ⟨hN, by rw [ht1]; exact counterAt_one cka enc lgts N⟩
      unfold exitLayerSpec
      rw [dif_pos h1, dif_pos h2]
      omega
    · obtain ⟨i', rfl⟩ : ∃ i', i = i' + 1 := ⟨i - 1, by omega⟩
      have hi'N : i' < N := by omega
      have h1 : ∃ k, k < N ∧ counterAt cka enc lgts N (k + 1) = t1 := ⟨i', hi'N, hi⟩
      have hf1 : Nat.find h1 ≤ i' := Nat.find_le ⟨hi'N, hi⟩
      unfold exitLayerSpec
      rw [dif_pos h1, dif_pos h2]
      omega
  · have hle := exitLayerSpec_le cka enc lgts N t1
    have h2N : exitLayerSpec cka enc lgts N t2 = N := by
      unfold exitLayerSpec
      rw [dif_neg h2]
    omega

end ElasticBertModel

end GatedAnalysis

section GatedLoopRun

namespace ElasticBertModel

variable {H L P : Type} [Inhabited H] [Inhabited L] [Inhabited P]
variable (cka : H → H → ℚ) (enc : ℕ → H) (lgts : ℕ → L)

/-- Per-layer encoder output as read by the gated loop. -/
def encOf (encoderL : List H) : ℕ → H := fun j => encoderL.getD j default

/-- Per-layer logits as computed by the gated loop
(`output_layers[i](pooled[i])`). -/
def lgOf (pooledL : List P) (output_layers : List (P → L)) : ℕ → L :=
  fun j => (output_layers.getD j (fun _ => default)) (pooledL.getD j default)

theorem gatedStep_no_break (N t a : ℕ)
    (h : counterAt cka enc lgts N (a + 1) ≠ t) :
    gatedStep cka enc lgts t a (gatedRun cka enc lgts N a)
      = (gatedRun cka enc lgts N (a + 1), false) := by
  unfold gatedStep
  rw [← gatedRun_succ]
  have h' : (gatedRun cka enc lgts N (a + 1)).kernel_counter ≠ t := h
  simp only [if_neg h']

theorem gatedStep_break (N t a : ℕ)
    (h : counterAt cka enc lgts N (a + 1) = t) :
    gatedStep cka enc lgts t a (gatedRun cka enc lgts N a)
      = ({ gatedRun cka enc lgts N (a + 1) with
            exits := (gatedRun cka enc lgts N (a + 1)).exits ++ [a + 1] }, true) := by
  unfold gatedStep
  rw [← gatedRun_succ]
  have h' : (gatedRun cka enc lgts N (a + 1)).kernel_counter = t := h
  simp only [if_pos h']

/-- If the counter never reaches the threshold on `[a, a + n)`, the loop
with exit test runs through all those iterations without breaking. -/
theorem pyLoopBreak_gated_no_hit (N t : ℕ) :
    ∀ n a, (∀ k, a ≤ k → k < a + n → counterAt cka enc lgts N (k + 1) ≠ t) →
    pyLoopBreak (gatedStep cka enc lgts t) (List.range' a n) (gatedRun cka enc lgts N a)
      = gatedRun cka enc lgts N (a + n) := by
  intro n
  induction n with
  | zero => intro a _; simp [pyLoopBreak]
  | succ n ih =>
    intro a hk
    rw [List.range'_succ]
    simp only [pyLoopBreak]
    rw [gatedStep_no_break cka enc lgts N t a (hk a (le_refl a) (by omega))]
    simp only [Bool.false_eq_true, if_false]
    have heq := ih (a + 1) (fun k h1 h2 => hk k (by omega) (by omega))
    rw [heq]
    congr 1
    omega

/-- If the counter first reaches the threshold at iteration `k0 ∈ [a, a+n)`,
the loop breaks there, having appended `k0 + 1` to the exit log. -/
theorem pyLoopBreak_gated_hit (N t : ℕ) :
    ∀ n a k0, a ≤ k0 → k0 < a + n → counterAt cka enc lgts N (k0 + 1) = t →
    (∀ k, a ≤ k → k < k0 → counterAt cka enc lgts N (k + 1) ≠ t) →
    pyLoopBreak (gatedStep cka enc lgts t) (List.range' a n) (gatedRun cka enc lgts N a)
      = { gatedRun cka enc lgts N (k0 + 1) with
          exits := (gatedRun cka enc lgts N (k0 + 1)).exits ++ [k0 + 1] } := by
  intro n
  induction n with
  | zero => intro a k0 h1 h2 _ _; omega
  | succ n ih =>
    intro a k0 hak hkn hc hmin
    rw [List.range'_succ]
    simp only [pyLoopBreak]
    rcases eq_or_lt_of_le hak with rfl | hlt
    · rw [gatedStep_break cka enc lgts N t a hc]
      simp
    · rw [gatedStep_no_break cka enc lgts N t a (hmin a (le_refl a) hlt)]
      simp only [Bool.false_eq_true, if_false]
      exact ih (a + 1) k0 hlt (by omega) hc (fun k u v => hmin k (by omega) v)

/-- The monadic loop body agrees with the pure one whenever the indices it
reads are in range. -/
theorem gatedBodyM_eq_gatedStep (encoderL : List H) (pooledL : List P)
    (output_layers : List (P → L)) (t i : ℕ) (s : GatedState H L)
    (hl : i < encoderL.length) (hp : i < pooledL.length) (hh : i < output_layers.length) :
    gatedBodyM cka encoderL pooledL output_layers t i s
      = .ok (gatedStep cka (encOf encoderL) (lgOf pooledL output_layers) t i s) := by
  unfold gatedBodyM gatedStep gatedStepCore pyGet encOf lgOf
  rw [dif_pos hl, dif_pos hp, dif_pos hh]
  simp only [List.getD_eq_getElem _ _ hl, List.getD_eq_getElem _ _ hp,
    List.getD_eq_getElem _ _ hh, List.get_eq_getElem, exceptBind_ok]
  repeat' split
  all_goals rfl

theorem pyForBreakM_cons_ok {σ : Type} (body : ℕ → σ → Except PyErr (σ × Bool))
    (i : ℕ) (is : List ℕ) (s : σ) (r : σ × Bool) (h : body i s = .ok r) :
    pyForBreakM body (i :: is) s = if r.2 then .ok r.1 else pyForBreakM body is r.1 := by
  simp only [pyForBreakM, h]
  rfl

theorem pyForBreakM_gated (encoderL : List H) (pooledL : List P)
    (output_layers : List (P → L)) (t : ℕ) :
    ∀ is : List ℕ,
      (∀ i ∈ is, i < encoderL.length ∧ i < pooledL.length ∧ i < output_layers.length) →
      ∀ s : GatedState H L,
      pyForBreakM (gatedBodyM cka encoderL pooledL output_layers t) is s
        = .ok (pyLoopBreak (gatedStep cka (encOf encoderL) (lgOf pooledL output_layers) t) is s) := by
  intro is
  induction is with
  | nil => intro _ s; rfl
  | cons i is ih =>
    intro hmem s
    obtain ⟨h1, h2, h3⟩ := hmem i (List.mem_cons_self i is)
    rw [pyForBreakM_cons_ok _ i is s _
      (gatedBodyM_eq_gatedStep cka encoderL pooledL output_layers t i s h1 h2 h3)]
    simp only [pyLoopBreak]
    split
    · rfl
    · exact ih (fun j hj => hmem j (List.mem_cons_of_mem i hj)) _

end ElasticBertModel

end GatedLoopRun

section GatedBranchChar

namespace ElasticBertModel

variable {H L P : Type} [Inhabited H] [Inhabited L] [Inhabited P]
variable (cka : H → H → ℚ)

/-- Master characterization of the gated-inference block: when the lists
produced by the encoder are long enough, the block succeeds, returns the
single logit set of the exit layer, counts the exit layer as the number of
computed loop iterations, bumps the instance count by one and records
exactly one exit layer, namely `exitLayerSpec`. -/
theorem gatedBranch_char (N t : ℕ) (encoderL : List H) (pooledL : List P)
    (output_layers : List (P → L)) (st : Stats)
    (hN : 1 ≤ N) (hl : N ≤ encoderL.length) (hp : N ≤ pooledL.length)
    (hh : N ≤ output_layers.length) :
    gatedBranch cka N t encoderL pooledL output_layers st
      = .ok (pooledL,
          [(gatedRun cka (encOf encoderL) (lgOf pooledL output_layers) N
              (exitLayerSpec cka (encOf encoderL) (lgOf pooledL output_layers) N t)).middle_result],
          ⟨st.inference_instances_num + 1,
           st.inference_layers_num
             + exitLayerSpec cka (encOf encoderL) (lgOf pooledL output_layers) N t,
           st.exiting_layer_every_ins
             ++ [exitLayerSpec cka (encOf encoderL) (lgOf pooledL output_layers) N t]⟩) := by
  have hmem : ∀ i ∈ List.range N,
      i < encoderL.length ∧ i < pooledL.length ∧ i < output_layers.length := by
    intro i hi
    rw [List.mem_range] at hi
    exact ⟨lt_of_lt_of_le hi hl, lt_of_lt_of_le hi hp, lt_of_lt_of_le hi hh⟩
  unfold gatedBranch
  rw [pyForBreakM_gated cka encoderL pooledL output_layers t (List.range N) hmem
    (gatedInit H L N)]
  simp only [exceptBind_ok]
  have hinit : gatedInit H L N
      = gatedRun cka (encOf encoderL) (lgOf pooledL output_layers) N 0 := rfl
  rw [List.range_eq_range' N, hinit]
  by_cases hex : ∃ k, k < N ∧
      counterAt cka (encOf encoderL) (lgOf pooledL output_layers) N (k + 1) = t
  · obtain ⟨hk0N, hk0c⟩ := Nat.find_spec hex
    have hmin : ∀ k, 0 ≤ k → k < Nat.find hex →
        counterAt cka (encOf encoderL) (lgOf pooledL output_layers) N (k + 1) ≠ t := by
      intro k _ hk hc
      exact Nat.find_min hex hk ⟨lt_trans hk hk0N, hc⟩
    rw [pyLoopBreak_gated_hit cka (encOf encoderL) (lgOf pooledL output_layers) N t N 0
      (Nat.find hex) (Nat.zero_le _) (by omega) hk0c hmin]
    have hE : exitLayerSpec cka (encOf encoderL) (lgOf pooledL output_layers) N t
        = Nat.find hex + 1 := by
      unfold exitLayerSpec
      rw [dif_pos hex]
    rw [hE]
    have hc2 : (gatedRun cka (encOf encoderL) (lgOf pooledL output_layers) N
        (Nat.find hex + 1)).kernel_counter = t := hk0c
    simp only [gatedRun_exits, gatedRun_calculated, List.nil_append, hc2, ne_eq,
      eq_self_iff_true, not_true_eq_false, if_false, List.append_nil, ite_self]
  · push_neg at hex
    have hall : ∀ k, 0 ≤ k → k < 0 + N →
        counterAt cka (encOf encoderL) (lgOf pooledL output_layers) N (k + 1) ≠ t := by
      intro k _ hk
      exact hex k (by omega)
    rw [pyLoopBreak_gated_no_hit cka (encOf encoderL) (lgOf pooledL output_layers) N t N 0 hall]
    have hE : exitLayerSpec cka (encOf encoderL) (lgOf pooledL output_layers) N t = N := by
      unfold exitLayerSpec
      rw [dif_neg]
      push_neg
      exact hex
    have hcN : (gatedRun cka (encOf encoderL) (lgOf pooledL output_layers) N (0 + N)).kernel_counter
        ≠ t := by
      intro hc
      have hN1 : N - 1 + 1 = N := by omega
      refine hex (N - 1) (by omega) ?_
      unfold counterAt
      rw [hN1]
      rw [Nat.zero_add] at hc
      exact hc
    rw [hE]
    simp only [Nat.zero_add] at hcN ⊢
    simp only [gatedRun_exits, gatedRun_calculated, ne_eq, hcN, not_false_eq_true, if_true,
      List.nil_append, List.append_nil, List.append_assoc]

end ElasticBertModel

end GatedBranchChar

section EncoderChar

namespace ElasticBertEncoder

variable {H L P : Type} [Inhabited H] [Inhabited L] [Inhabited P]

/-- Hidden state after `k` transformer layers. -/
def layerIter (p : ModelParams H L P) (h0 : H) : ℕ → H
  | 0 => h0
  | k + 1 => p.layer k (layerIter p h0 k)

/-- The per-layer sequence outputs the encoder collects when every layer is
an output layer (`num_output_layers = num_hidden_layers`). -/
def seqList (p : ModelParams H L P) (h0 : H) : List H :=
  (List.range p.num_hidden_layers).map (fun i => layerIter p h0 (i + 1))

/-- The per-layer pooled outputs in the same configuration. -/
def pooledList (p : ModelParams H L P) (h0 : H) : List P :=
  (List.range p.num_hidden_layers).map (fun i => p.pool i (layerIter p h0 (i + 1)))

/-- Encoder loop invariant state after `j` iterations, in the
`num_output_layers = num_hidden_layers` configuration. -/
def stateAt (p : ModelParams H L P) (h0 : H) (j : ℕ) : EncState H P :=
  ⟨layerIter p h0 j, some ((List.range j).map (fun i => layerIter p h0 (i + 1))),
   some ((List.range j).map (fun i => p.pool i (layerIter p h0 (i + 1)))), none, List.range j⟩

theorem body_stateAt (p : ModelParams H L P) (training : Bool) (h0 : H) (j : ℕ)
    (hK : p.num_output_layers = p.num_hidden_layers) (h2 : 2 ≤ p.num_hidden_layers)
    (hM : p.num_hidden_layers ≤ p.max_output_layers) (hj : j < p.num_hidden_layers) :
    body p training j (stateAt p h0 j) = .ok (stateAt p h0 (j + 1)) := by
  have hK1 : p.num_output_layers > 1 := by omega
  have hstart : start_output_layer p = 0 := by unfold start_output_layer; omega
  have hpool : pyGet (poolers p) (j - start_output_layer p) = .ok (some (p.pool j)) := by
    unfold poolers pyGet
    rw [if_pos hK1, hstart, Nat.sub_zero]
    have hlen : j < (List.map (fun i =>
        if (0 : ℕ) ≤ i ∧ i ≤ p.num_hidden_layers - 1 then some (p.pool i)
        else none) (List.range p.max_output_layers)).length := by
      rw [List.length_map, List.length_range]
      omega
    rw [dif_pos hlen]
    congr 1
    simp only [List.get_eq_getElem, List.getElem_map, List.getElem_range]
    rw [if_pos]
    exact ⟨Nat.zero_le j, by omega⟩
  unfold body
  dsimp only
  rw [if_pos hK1, if_pos (show start_output_layer p ≤ j from by rw [hstart]; exact Nat.zero_le j)]
  rw [hpool]
  unfold gradient_rescale
  simp only [exceptBind_ok, ite_self, Option.getD_some]
  unfold stateAt
  rw [List.range_succ]
  simp only [List.map_append]
  rfl

theorem pyForM_body_stateAt (p : ModelParams H L P) (training : Bool) (h0 : H)
    (hK : p.num_output_layers = p.num_hidden_layers) (h2 : 2 ≤ p.num_hidden_layers)
    (hM : p.num_hidden_layers ≤ p.max_output_layers) :
    ∀ n j, j + n ≤ p.num_hidden_layers →
    pyForM (body p training) (List.range' j n) (stateAt p h0 j) = .ok (stateAt p h0 (j + n)) := by
  intro n
  induction n with
  | zero => intro j hj; simp [pyForM]
  | succ n ih =>
    intro j hj
    rw [List.range'_succ]
    simp only [pyForM]
    rw [body_stateAt p training h0 j hK h2 hM (by omega)]
    simp only [exceptBind_ok]
    rw [ih (j + 1) (by omega)]
    congr 2
    omega

/-- Encoder characterization in the only configuration in which the forward
passes succeed (`2 ≤ num_output_layers = num_hidden_layers ≤
max_output_layers`): all `num_hidden_layers` layers are applied, and the
per-exit output tuples have one entry per layer. -/
theorem forward_char (p : ModelParams H L P) (training : Bool) (h0 : H)
    (hK : p.num_output_layers = p.num_hidden_layers) (h2 : 2 ≤ p.num_hidden_layers)
    (hM : p.num_hidden_layers ≤ p.max_output_layers) :
    forward p training h0
      = .ok ⟨[Comp.hid (layerIter p h0 p.num_hidden_layers),
              Comp.seqs (seqList p h0), Comp.pooleds (pooledList p h0)],
             List.range p.num_hidden_layers⟩ := by
  have hK1 : p.num_output_layers > 1 := by omega
  unfold forward
  have hinit : (⟨h0, if p.num_output_layers > 1 then some [] else none,
      if p.num_output_layers > 1 then some [] else none, none, []⟩ : EncState H P)
      = stateAt p h0 0 := by
    unfold stateAt
    simp only [if_pos hK1]
    rfl
  rw [hinit, List.range_eq_range' p.num_hidden_layers]
  dsimp only
  rw [pyForM_body_stateAt p training h0 hK h2 hM p.num_hidden_layers 0 (by omega)]
  simp only [exceptBind_ok]
  unfold stateAt seqList pooledList
  simp only [Nat.zero_add, Option.map_some', Option.map_none', List.reduceOption]
  rw [← List.range_eq_range' p.num_hidden_layers]
  rfl

end ElasticBertEncoder

end EncoderChar

section ForwardGatedChar

namespace ElasticBertModel

variable {H L P : Type} [Inhabited H] [Inhabited L] [Inhabited P]

/-- Exit layer recorded by a gated-inference forward call on embedding
output `h0` (in the `num_output_layers = num_hidden_layers` configuration
under which the call succeeds). -/
def gatedExitOf (p : ModelParams H L P) (h0 : H) (t : ℕ) : ℕ :=
  exitLayerSpec p.cka (encOf (ElasticBertEncoder.seqList p h0))
    (lgOf (ElasticBertEncoder.pooledList p h0) ((List.range p.num_output_layers).map p.classifier))
    p.num_hidden_layers t

/-- The single logit set returned by a gated-inference forward call. -/
def gatedLogitsOf (p : ModelParams H L P) (h0 : H) (t : ℕ) : Option L :=
  (gatedRun p.cka (encOf (ElasticBertEncoder.seqList p h0))
    (lgOf (ElasticBertEncoder.pooledList p h0) ((List.range p.num_output_layers).map p.classifier))
    p.num_hidden_layers (gatedExitOf p h0 t)).middle_result

/-- Characterization of a gated-inference `forward` call
(`training = False`, `eval_highway = True`) with `input_ids` supplied, in
the working configuration `2 ≤ num_output_layers = num_hidden_layers ≤
max_output_layers`. -/
theorem forward_gated_char {Ids Emb : Type} (p : ModelParams H L P) (embedF : Ids ⊕ Emb → H)
    (t : ℕ) (a : Ids) (st : Stats)
    (hK : p.num_output_layers = p.num_hidden_layers) (h2 : 2 ≤ p.num_hidden_layers)
    (hM : p.num_hidden_layers ≤ p.max_output_layers) :
    forward p embedF false true t (some a) (none : Option Emb) st
      = .ok ⟨ElasticBertEncoder.pooledList p (embedF (Sum.inl a)),
             [gatedLogitsOf p (embedF (Sum.inl a)) t],
             ⟨st.inference_instances_num + 1,
              st.inference_layers_num + gatedExitOf p (embedF (Sum.inl a)) t,
              st.exiting_layer_every_ins ++ [gatedExitOf p (embedF (Sum.inl a)) t]⟩,
             List.range p.num_hidden_layers⟩ := by
  unfold forward
  rw [show resolveInputs (some a) (none : Option Emb) = .ok (Sum.inl a) from rfl]
  simp only [exceptBind_ok, Bool.false_eq_true, if_false, Bool.not_true]
  unfold highwayBranch
  rw [ElasticBertEncoder.forward_char p false (embedF (Sum.inl a)) hK h2 hM]
  simp only [exceptBind_ok]
  rw [show pyGet [ElasticBertEncoder.Comp.hid (ElasticBertEncoder.layerIter p (embedF (Sum.inl a)) p.num_hidden_layers),
      ElasticBertEncoder.Comp.seqs (ElasticBertEncoder.seqList p (embedF (Sum.inl a))),
      ElasticBertEncoder.Comp.pooleds (ElasticBertEncoder.pooledList p (embedF (Sum.inl a)))] 1
      = .ok (ElasticBertEncoder.Comp.seqs (ElasticBertEncoder.seqList p (embedF (Sum.inl a)))) from rfl]
  simp only [exceptBind_ok]
  rw [show pyGet [ElasticBertEncoder.Comp.hid (ElasticBertEncoder.layerIter p (embedF (Sum.inl a)) p.num_hidden_layers),
      ElasticBertEncoder.Comp.seqs (ElasticBertEncoder.seqList p (embedF (Sum.inl a))),
      ElasticBertEncoder.Comp.pooleds (ElasticBertEncoder.pooledList p (embedF (Sum.inl a)))] 2
      = .ok (ElasticBertEncoder.Comp.pooleds (ElasticBertEncoder.pooledList p (embedF (Sum.inl a)))) from rfl]
  simp only [exceptBind_ok]
  rw [gatedBranch_char p.cka p.num_hidden_layers t
    (ElasticBertEncoder.seqList p (embedF (Sum.inl a)))
    (ElasticBertEncoder.pooledList p (embedF (Sum.inl a)))
    ((List.range p.num_output_layers).map p.classifier) st (by omega)
    (by unfold ElasticBertEncoder.seqList; rw [List.length_map, List.length_range])
    (by unfold ElasticBertEncoder.pooledList; rw [List.length_map, List.length_range])
    (by rw [List.length_map, List.length_range]; omega)]
  simp only [exceptBind_ok]
  rfl

/-- The exit layer recorded for the single instance processed by a forward
call: the last entry of the exit log (0 when the call raised). -/
def recordedExitLayer (r : Except PyErr (ForwardOut L P)) : ℕ :=
  match r with
  | .ok out => out.stats.exiting_layer_every_ins.getLastD 0
  | .error _ => 0

end ElasticBertModel

end ForwardGatedChar

section ConcreteRuns

/-- Concrete 3-layer model over `ℕ` carriers (`num_output_layers =
num_hidden_layers = max_output_layers = 3`) with constant similarity. -/
def cParams : ModelParams ℕ ℕ ℕ :=
  ⟨3, 3, 3, fun _ h => h + 1, fun _ h => h, fun _ q => q, fun _ _ => 0, id⟩

/-- Same model but with `num_output_layers = 2 < num_hidden_layers = 3`. -/
def cParamsK2 : ModelParams ℕ ℕ ℕ :=
  ⟨3, 2, 3, fun _ h => h + 1, fun _ h => h, fun _ q => q, fun _ _ => 0, id⟩

/-- A 2-layer model with `num_output_layers = 1`. -/
def cParamsK1 : ModelParams ℕ ℕ ℕ :=
  ⟨2, 1, 2, fun _ h => h + 1, fun _ h => h, fun _ q => q, fun _ _ => 0, id⟩

/-- Concrete embedding module for the models above. -/
def cEmbedF : Unit ⊕ Unit → ℕ := fun _ => 0

/-- A concrete gated-inference run with `infer_threshold = 0` on fresh
statistics. -/
def cRun0 : Except PyErr (ElasticBertModel.ForwardOut ℕ ℕ) :=
  ElasticBertModel.forward cParams cEmbedF false true 0 (some ()) (none : Option Unit) ⟨0, 0, []⟩

/-- Ghost trace of the layer indices applied by the encoder during a
forward call (empty when the call raised). -/
def appliedOf {L P : Type} (r : Except PyErr (ElasticBertModel.ForwardOut L P)) : List ℕ :=
  match r with
  | .ok out => out.layersApplied
  | .error _ => []

end ConcreteRuns

section ClaimsGated

/-- C1 (counterexample): with `infer_threshold = 0` the recorded exit layer
is 1, not in `[3, num_hidden_layers]`: on a concrete 3-layer model the
claimed bounds fail. -/
theorem claim_C1_counterexample :
    ElasticBertModel.recordedExitLayer cRun0 = 1
    ∧ ¬(3 ≤ ElasticBertModel.recordedExitLayer cRun0
        ∧ ElasticBertModel.recordedExitLayer cRun0 ≤ 3) := by decide

/-- C1 (amended): in gated inference with `infer_threshold = 0`, for every
input and every working configuration
(`2 ≤ num_output_layers = num_hidden_layers ≤ max_output_layers`), the
recorded exit layer is exactly 1: at the first loop iteration the counter
is reset to 0 (`middle_result` is still `None`), which equals the
threshold, so the model exits at layer 1 before any similarity is
consulted. -/
theorem claim_C1 {H L P Ids Emb : Type} [Inhabited H] [Inhabited L] [Inhabited P]
    (p : ModelParams H L P) (embedF : Ids ⊕ Emb → H) (a : Ids) (st : Stats)
    (hK : p.num_output_layers = p.num_hidden_layers) (h2 : 2 ≤ p.num_hidden_layers)
    (hM : p.num_hidden_layers ≤ p.max_output_layers) :
    ElasticBertModel.recordedExitLayer
      (ElasticBertModel.forward p embedF false true 0 (some a) (none : Option Emb) st) = 1 := by
  rw [ElasticBertModel.forward_gated_char p embedF 0 a st hK h2 hM]
  unfold ElasticBertModel.recordedExitLayer
  dsimp only
  rw [List.getLastD_concat]
  unfold ElasticBertModel.gatedExitOf
  exact ElasticBertModel.exitLayerSpec_threshold_zero _ _ _ _ (by omega)

theorem claim_C1_witness :
    cParams.num_output_layers = cParams.num_hidden_layers
    ∧ 2 ≤ cParams.num_hidden_layers
    ∧ cParams.num_hidden_layers ≤ cParams.max_output_layers
    ∧ ElasticBertModel.recordedExitLayer cRun0 = 1 :=
  ⟨rfl, by decide, by decide,
   claim_C1 cParams cEmbedF () ⟨0, 0, []⟩ rfl (by decide) (by decide)⟩

/-- C2: training-mode forward does not work for every `1 ≤ K ≤ N`; it
crashes whenever `num_output_layers < num_hidden_layers` (the `None`
pooler entry `self.pooler[0]` is called, `TypeError`) and when
`num_output_layers = 1` (`encoder_out[2]` on a 2-tuple, `IndexError`),
while for `num_output_layers = num_hidden_layers = 3` it returns exactly
3 logit sets and 3 pooled outputs as the code's own assertion expects. -/
theorem claim_C2 :
    ElasticBertModel.forward cParamsK2 cEmbedF true false 0 (some ()) (none : Option Unit)
      ⟨0, 0, []⟩ = .error .typeError
    ∧ ElasticBertModel.forward cParamsK1 cEmbedF true false 0 (some ()) (none : Option Unit)
      ⟨0, 0, []⟩ = .error .indexError
    ∧ (ElasticBertModel.forward cParams cEmbedF true false 0 (some ()) (none : Option Unit)
      ⟨0, 0, []⟩).map (fun out => (out.res.length, out.pooled.length)) = .ok (3, 3) := by
  decide

/-- C3 (counterexample): on a concrete 3-layer gated run with
`infer_threshold = 0` the recorded exit layer is 1, yet layer index 2 (the
third layer) was computed by the encoder: the full stack runs before the
early-exit loop, so layers past the recorded exit layer are computed. -/
theorem claim_C3_counterexample :
    ElasticBertModel.recordedExitLayer cRun0 = 1
    ∧ 2 ∈ appliedOf cRun0
    ∧ ¬(2 + 1 ≤ ElasticBertModel.recordedExitLayer cRun0) := by decide

/-- C3 (amended): a gated-inference forward call in a working
configuration returns exactly one logit set, and the early-exit loop runs
for exactly the recorded exit layer number of iterations (at most
`num_hidden_layers`); however the encoder always computes all
`num_hidden_layers` layers up front (the layer-by-layer `adaptive_forward`
path is not used), regardless of the recorded exit layer. -/
theorem claim_C3 {H L P Ids Emb : Type} [Inhabited H] [Inhabited L] [Inhabited P]
    (p : ModelParams H L P) (embedF : Ids ⊕ Emb → H) (t : ℕ) (a : Ids) (st : Stats)
    (hK : p.num_output_layers = p.num_hidden_layers) (h2 : 2 ≤ p.num_hidden_layers)
    (hM : p.num_hidden_layers ≤ p.max_output_layers) :
    ∃ (out : ElasticBertModel.ForwardOut L P) (e : ℕ),
      ElasticBertModel.forward p embedF false true t (some a) (none : Option Emb) st = .ok out
      ∧ out.res.length = 1
      ∧ out.layersApplied = List.range p.num_hidden_layers
      ∧ 1 ≤ e ∧ e ≤ p.num_hidden_layers
      ∧ out.stats.exiting_layer_every_ins = st.exiting_layer_every_ins ++ [e]
      ∧ out.stats.inference_layers_num = st.inference_layers_num + e := by
  refine ⟨_, ElasticBertModel.gatedExitOf p (embedF (Sum.inl a)) t,
    ElasticBertModel.forward_gated_char p embedF t a st hK h2 hM, rfl, rfl, ?_, ?_, rfl, rfl⟩
  · unfold ElasticBertModel.gatedExitOf
    exact ElasticBertModel.exitLayerSpec_pos _ _ _ _ _ (by omega)
  · unfold ElasticBertModel.gatedExitOf
    exact ElasticBertModel.exitLayerSpec_le _ _ _ _ _

theorem claim_C3_witness :
    2 ≤ cParams.num_hidden_layers
    ∧ ∃ (out : ElasticBertModel.ForwardOut ℕ ℕ) (e : ℕ),
      ElasticBertModel.forward cParams cEmbedF false true 1 (some ()) (none : Option Unit)
        ⟨0, 0, []⟩ = .ok out
      ∧ out.res.length = 1
      ∧ out.layersApplied = List.range cParams.num_hidden_layers
      ∧ 1 ≤ e ∧ e ≤ cParams.num_hidden_layers
      ∧ out.stats.exiting_layer_every_ins = [] ++ [e]
      ∧ out.stats.inference_layers_num = 0 + e :=
  ⟨by decide, claim_C3 cParams cEmbedF 1 () ⟨0, 0, []⟩ rfl (by decide) (by decide)⟩

/-- C6: for a fixed input and fixed weights in gated inference mode, the
recorded exit layer is monotonically non-decreasing in `infer_threshold`. -/
theorem claim_C6 {H L P Ids Emb : Type} [Inhabited H] [Inhabited L] [Inhabited P]
    (p : ModelParams H L P) (embedF : Ids ⊕ Emb → H) (a : Ids) (st : Stats) (t1 t2 : ℕ)
    (hK : p.num_output_layers = p.num_hidden_layers) (h2 : 2 ≤ p.num_hidden_layers)
    (hM : p.num_hidden_layers ≤ p.max_output_layers) (ht : t1 ≤ t2) :
    ElasticBertModel.recordedExitLayer
      (ElasticBertModel.forward p embedF false true t1 (some a) (none : Option Emb) st)
    ≤ ElasticBertModel.recordedExitLayer
      (ElasticBertModel.forward p embedF false true t2 (some a) (none : Option Emb) st) := by
  rw [ElasticBertModel.forward_gated_char p embedF t1 a st hK h2 hM,
    ElasticBertModel.forward_gated_char p embedF t2 a st hK h2 hM]
  unfold ElasticBertModel.recordedExitLayer
  dsimp only
  rw [List.getLastD_concat, List.getLastD_concat]
  unfold ElasticBertModel.gatedExitOf
  exact ElasticBertModel.exitLayerSpec_mono _ _ _ _ _ _ (by omega) ht

theorem claim_C6_witness :
    (0 : ℕ) ≤ 1
    ∧ ElasticBertModel.recordedExitLayer
        (ElasticBertModel.forward cParams cEmbedF false true 0 (some ()) (none : Option Unit)
          ⟨0, 0, []⟩)
      ≤ ElasticBertModel.recordedExitLayer
        (ElasticBertModel.forward cParams cEmbedF false true 1 (some ()) (none : Option Unit)
          ⟨0, 0, []⟩) :=
  ⟨by decide,
   claim_C6 cParams cEmbedF () ⟨0, 0, []⟩ 0 1 rfl (by decide) (by decide) (by decide)⟩

/-- C10: every completed gated-inference forward call increments
`inference_instances_num` by exactly 1, increments `inference_layers_num`
by the number of loop iterations performed (between 1 and
`num_hidden_layers`), appends exactly one entry, in
`[1, num_hidden_layers]`, to `exiting_layer_every_ins`, and returns
exactly one logit set; hence the length of the exit log keeps matching the
instance count. -/
theorem claim_C10 {H L P Ids Emb : Type} [Inhabited H] [Inhabited L] [Inhabited P]
    (p : ModelParams H L P) (embedF : Ids ⊕ Emb → H) (t : ℕ) (a : Ids) (st : Stats)
    (hK : p.num_output_layers = p.num_hidden_layers) (h2 : 2 ≤ p.num_hidden_layers)
    (hM : p.num_hidden_layers ≤ p.max_output_layers) :
    ∃ (out : ElasticBertModel.ForwardOut L P) (e : ℕ),
      ElasticBertModel.forward p embedF false true t (some a) (none : Option Emb) st = .ok out
      ∧ 1 ≤ e ∧ e ≤ p.num_hidden_layers
      ∧ out.stats.inference_instances_num = st.inference_instances_num + 1
      ∧ out.stats.inference_layers_num = st.inference_layers_num + e
      ∧ out.stats.exiting_layer_every_ins = st.exiting_layer_every_ins ++ [e]
      ∧ out.res.length = 1
      ∧ (st.exiting_layer_every_ins.length = st.inference_instances_num →
          out.stats.exiting_layer_every_ins.length = out.stats.inference_instances_num) := by
  refine ⟨_, ElasticBertModel.gatedExitOf p (embedF (Sum.inl a)) t,
    ElasticBertModel.forward_gated_char p embedF t a st hK h2 hM, ?_, ?_, rfl, rfl, rfl, rfl, ?_⟩
  · unfold ElasticBertModel.gatedExitOf
    exact ElasticBertModel.exitLayerSpec_pos _ _ _ _ _ (by omega)
  · unfold ElasticBertModel.gatedExitOf
    exact ElasticBertModel.exitLayerSpec_le _ _ _ _ _
  · intro hlen
    simp [hlen]

theorem claim_C10_witness :
    2 ≤ cParams.num_hidden_layers
    ∧ ∃ (out : ElasticBertModel.ForwardOut ℕ ℕ) (e : ℕ),
      ElasticBertModel.forward cParams cEmbedF false true 2 (some ()) (none : Option Unit)
        ⟨4, 9, [2]⟩ = .ok out
      ∧ 1 ≤ e ∧ e ≤ cParams.num_hidden_layers
      ∧ out.stats.inference_instances_num = 4 + 1
      ∧ out.stats.inference_layers_num = 9 + e
      ∧ out.stats.exiting_layer_every_ins = [2] ++ [e]
      ∧ out.res.length = 1
      ∧ (([2] : List ℕ).length = 4 →
          out.stats.exiting_layer_every_ins.length = out.stats.inference_instances_num) :=
  ⟨by decide, claim_C10 cParams cEmbedF 2 () ⟨4, 9, [2]⟩ rfl (by decide) (by decide)⟩

end ClaimsGated

section ClaimC8

/-- C8: `log_stats` divides by zero (raises) when no instances have been
recorded — in particular immediately after `reset_stats`; when instances
have been recorded it returns `num_hidden_layers` divided by the average
number of inference layers; and after `reset_stats` followed by exactly
one gated-inference call it returns `num_hidden_layers /
layers_computed_for_that_call`. -/
theorem claim_C8 :
    (∀ (n : ℕ) (s : Stats),
      ElasticBertModel.log_stats n (ElasticBertModel.reset_stats s)
        = .error .zeroDivisionError)
    ∧ (∀ (n : ℕ) (s : Stats),
        s.inference_instances_num ≠ 0 → s.inference_layers_num ≠ 0 →
        ElasticBertModel.log_stats n s
          = .ok ((n : ℚ) / ((s.inference_layers_num : ℚ) / (s.inference_instances_num : ℚ))))
    ∧ (∀ (H L P Ids Emb : Type) [Inhabited H] [Inhabited L] [Inhabited P]
        (p : ModelParams H L P) (embedF : Ids ⊕ Emb → H) (t : ℕ) (a : Ids) (s : Stats),
        p.num_output_layers = p.num_hidden_layers → 2 ≤ p.num_hidden_layers →
        p.num_hidden_layers ≤ p.max_output_layers →
        ∃ out : ElasticBertModel.ForwardOut L P,
          ElasticBertModel.forward p embedF false true t (some a) (none : Option Emb)
            (ElasticBertModel.reset_stats s) = .ok out
          ∧ 1 ≤ out.stats.inference_layers_num
          ∧ out.stats.inference_layers_num ≤ p.num_hidden_layers
          ∧ ElasticBertModel.log_stats p.num_hidden_layers out.stats
            = .ok ((p.num_hidden_layers : ℚ) / (out.stats.inference_layers_num : ℚ))) := by
  refine ⟨?_, ?_, ?_⟩
  · intro n s
    simp [ElasticBertModel.log_stats, ElasticBertModel.reset_stats, pyDiv, exceptBind_error]
  · intro n s h1 h2
    have hinst : ((s.inference_instances_num : ℚ)) ≠ 0 := by exact_mod_cast h1
    have hlay : ((s.inference_layers_num : ℚ)) ≠ 0 := by exact_mod_cast h2
    unfold ElasticBertModel.log_stats pyDiv
    rw [if_neg hinst]
    rw [exceptBind_ok]
    rw [if_neg (div_ne_zero hlay hinst)]
    rfl
  · intro H L P Ids Emb _ _ _ p embedF t a s hK h2 hM
    refine ⟨_, ElasticBertModel.forward_gated_char p embedF t a (ElasticBertModel.reset_stats s)
      hK h2 hM, ?_, ?_, ?_⟩
    · unfold ElasticBertModel.reset_stats ElasticBertModel.gatedExitOf
      dsimp only
      have := ElasticBertModel.exitLayerSpec_pos p.cka
        (ElasticBertModel.encOf (ElasticBertEncoder.seqList p (embedF (Sum.inl a))))
        (ElasticBertModel.lgOf (ElasticBertEncoder.pooledList p (embedF (Sum.inl a)))
          ((List.range p.num_output_layers).map p.classifier))
        p.num_hidden_layers t (by omega)
      omega
    · unfold ElasticBertModel.reset_stats ElasticBertModel.gatedExitOf
      dsimp only
      have := ElasticBertModel.exitLayerSpec_le p.cka
        (ElasticBertModel.encOf (ElasticBertEncoder.seqList p (embedF (Sum.inl a))))
        (ElasticBertModel.lgOf (ElasticBertEncoder.pooledList p (embedF (Sum.inl a)))
          ((List.range p.num_output_layers).map p.classifier))
        p.num_hidden_layers t
      omega
    · have he : 1 ≤ ElasticBertModel.gatedExitOf p (embedF (Sum.inl a)) t := by
        unfold ElasticBertModel.gatedExitOf
        exact ElasticBertModel.exitLayerSpec_pos _ _ _ _ _ (by omega)
      unfold ElasticBertModel.reset_stats
      dsimp only
      have hinst : (((0 + 1 : ℕ) : ℚ)) ≠ 0 := by norm_num
      have hlay : (((0 + ElasticBertModel.gatedExitOf p (embedF (Sum.inl a)) t : ℕ) : ℚ)) ≠ 0 := by
        have : (0 + ElasticBertModel.gatedExitOf p (embedF (Sum.inl a)) t : ℕ) ≠ 0 := by omega
        exact_mod_cast this
      unfold ElasticBertModel.log_stats pyDiv
      rw [if_neg hinst]
      rw [exceptBind_ok]
      rw [if_neg (by
        refine div_ne_zero hlay hinst)]
      rw [exceptBind_ok]
      congr 1
      rw [show (((0 + 1 : ℕ) : ℚ)) = 1 by norm_num, div_one]

theorem claim_C8_witness :
    ElasticBertModel.log_stats 3 (ElasticBertModel.reset_stats ⟨2, 5, [1]⟩)
      = .error .zeroDivisionError
    ∧ ElasticBertModel.log_stats 4 ⟨2, 6, [3, 3]⟩
      = .ok ((4 : ℚ) / (((⟨2, 6, [3, 3]⟩ : Stats).inference_layers_num : ℚ)
          / ((⟨2, 6, [3, 3]⟩ : Stats).inference_instances_num : ℚ)))
    ∧ (∃ out : ElasticBertModel.ForwardOut ℕ ℕ,
        ElasticBertModel.forward cParams cEmbedF false true 0 (some ()) (none : Option Unit)
          (ElasticBertModel.reset_stats ⟨7, 8, [1, 2]⟩) = .ok out
        ∧ 1 ≤ out.stats.inference_layers_num
        ∧ out.stats.inference_layers_num ≤ cParams.num_hidden_layers
        ∧ ElasticBertModel.log_stats cParams.num_hidden_layers out.stats
          = .ok ((cParams.num_hidden_layers : ℚ) / (out.stats.inference_layers_num : ℚ))) :=
  ⟨claim_C8.1 3 ⟨2, 5, [1]⟩,
   claim_C8.2.1 4 ⟨2, 6, [3, 3]⟩ (by decide) (by decide),
   claim_C8.2.2 ℕ ℕ ℕ Unit Unit cParams cEmbedF 0 () ⟨7, 8, [1, 2]⟩ rfl (by decide) (by decide)⟩

end ClaimC8

section ClaimC4

/-- A result that is not a `ValueError` (the error class of the input
contract at the top of `forward`). -/
def NoValueError {α : Type} (r : Except PyErr α) : Prop :=
  ∀ msg, r ≠ .error (.valueError msg)

theorem noVE_ok {α : Type} (a : α) : NoValueError (.ok a : Except PyErr α) := by
  intro msg h
  cases h

theorem noVE_typeError {α : Type} : NoValueError (.error .typeError : Except PyErr α) := by
  intro msg h
  cases h

theorem noVE_indexError {α : Type} : NoValueError (.error .indexError : Except PyErr α) := by
  intro msg h
  cases h

theorem noVE_assertionError {α : Type} :
    NoValueError (.error .assertionError : Except PyErr α) := by
  intro msg h
  cases h

theorem noVE_bind {α β : Type} (x : Except PyErr α) (f : α → Except PyErr β)
    (hx : NoValueError x) (hf : ∀ a, NoValueError (f a)) : NoValueError (x >>= f) := by
  cases x with
  | ok a => rw [exceptBind_ok]; exact hf a
  | error e =>
    rw [exceptBind_error]
    intro msg h
    injection h with h'
    exact hx msg (by rw [h'])

theorem noVE_ite {α : Type} (c : Prop) [Decidable c] (a b : Except PyErr α)
    (ha : NoValueError a) (hb : NoValueError b) : NoValueError (if c then a else b) := by
  split
  · exact ha
  · exact hb

theorem noVE_pyGet {α : Type} (l : List α) (i : ℕ) : NoValueError (pyGet l i) := by
  unfold pyGet
  split
  · exact noVE_ok _
  · exact noVE_indexError

theorem noVE_pyForM {σ : Type} (body : ℕ → σ → Except PyErr σ)
    (hb : ∀ i s, NoValueError (body i s)) :
    ∀ (is : List ℕ) (s : σ), NoValueError (pyForM body is s) := by
  intro is
  induction is with
  | nil => intro s; exact noVE_ok _
  | cons i is ih =>
    intro s
    show NoValueError (body i s >>= fun x => pyForM body is x)
    exact noVE_bind _ _ (hb i s) (fun x => ih x)

theorem noVE_pyForBreakM {σ : Type} (body : ℕ → σ → Except PyErr (σ × Bool))
    (hb : ∀ i s, NoValueError (body i s)) :
    ∀ (is : List ℕ) (s : σ), NoValueError (pyForBreakM body is s) := by
  intro is
  induction is with
  | nil => intro s; exact noVE_ok _
  | cons i is ih =>
    intro s
    show NoValueError (body i s >>= fun r => if r.2 then .ok r.1 else pyForBreakM body is r.1)
    refine noVE_bind _ _ (hb i s) (fun r => ?_)
    split
    · exact noVE_ok _
    · exact ih _

section NoVEModel

variable {H L P : Type} [Inhabited H] [Inhabited L] [Inhabited P]

theorem noVE_encoderBody (p : ModelParams H L P) (training : Bool) (i : ℕ)
    (s : ElasticBertEncoder.EncState H P) :
    NoValueError (ElasticBertEncoder.body p training i s) := by
  unfold ElasticBertEncoder.body
  dsimp only
  split
  · split
    · refine noVE_bind _ _ (noVE_pyGet _ _) (fun po => ?_)
      cases po
      · exact noVE_typeError
      · exact noVE_ok _
    · exact noVE_ok _
  · split
    · refine noVE_bind _ _ (noVE_pyGet _ _) (fun po => ?_)
      cases po
      · exact noVE_typeError
      · exact noVE_ok _
    · exact noVE_ok _

theorem noVE_encoderForward (p : ModelParams H L P) (training : Bool) (h0 : H) :
    NoValueError (ElasticBertEncoder.forward p training h0) := by
  unfold ElasticBertEncoder.forward
  dsimp only
  exact noVE_bind _ _ (noVE_pyForM _ (noVE_encoderBody p training) _ _) (fun s => noVE_ok _)

theorem noVE_gatedBodyM (cka : H → H → ℚ) (encoderL : List H) (pooledL : List P)
    (output_layers : List (P → L)) (t i : ℕ) (s : ElasticBertModel.GatedState H L) :
    NoValueError (ElasticBertModel.gatedBodyM cka encoderL pooledL output_layers t i s) := by
  unfold ElasticBertModel.gatedBodyM
  dsimp only
  refine noVE_bind _ _ (noVE_pyGet _ _) (fun x => ?_)
  refine noVE_bind _ _ (noVE_pyGet _ _) (fun y => ?_)
  refine noVE_bind _ _ (noVE_pyGet _ _) (fun z => ?_)
  exact noVE_ite _ _ _ (noVE_ok _) (noVE_ok _)

theorem noVE_gatedBranch (cka : H → H → ℚ) (n t : ℕ) (encoderL : List H) (pooledL : List P)
    (output_layers : List (P → L)) (st : Stats) :
    NoValueError (ElasticBertModel.gatedBranch cka n t encoderL pooledL output_layers st) := by
  unfold ElasticBertModel.gatedBranch
  exact noVE_bind _ _
    (noVE_pyForBreakM _ (noVE_gatedBodyM cka encoderL pooledL output_layers t) _ _)
    (fun s => noVE_ok _)

theorem noVE_trainingBranch (p : ModelParams H L P) (output_layers : List (P → L))
    (h0 : H) (st : Stats) :
    NoValueError (ElasticBertModel.trainingBranch p output_layers h0 st) := by
  unfold ElasticBertModel.trainingBranch
  refine noVE_bind _ _ (noVE_encoderForward p true h0) (fun eo => ?_)
  refine noVE_bind _ _ (noVE_pyGet _ _) (fun c1 => ?_)
  refine noVE_bind _ _ (noVE_pyGet _ _) (fun c2 => ?_)
  cases c1 <;> cases c2 <;> try exact noVE_typeError
  refine noVE_bind _ _ (noVE_pyForM _ ?_ _ _) (fun res => ?_)
  · intro i s
    refine noVE_bind _ _ (noVE_pyGet _ _) (fun x => ?_)
    refine noVE_bind _ _ (noVE_pyGet _ _) (fun y => ?_)
    refine noVE_bind _ _ (noVE_pyGet _ _) (fun z => ?_)
    exact noVE_ok _
  · split
    · exact noVE_ok _
    · exact noVE_assertionError

theorem noVE_evalBranch (p : ModelParams H L P) (output_layers : List (P → L))
    (h0 : H) (st : Stats) :
    NoValueError (ElasticBertModel.evalBranch p output_layers h0 st) := by
  unfold ElasticBertModel.evalBranch
  refine noVE_bind _ _ (noVE_encoderForward p false h0) (fun eo => ?_)
  refine noVE_bind _ _ (noVE_pyGet _ _) (fun c1 => ?_)
  refine noVE_bind _ _ (noVE_pyGet _ _) (fun c2 => ?_)
  cases c1 <;> cases c2 <;> try exact noVE_typeError
  refine noVE_ite _ _ _ ?_ noVE_assertionError
  refine noVE_bind _ _ (noVE_pyForM _ ?_ _ _) (fun res => noVE_ok _)
  intro i s
  refine noVE_bind _ _ (noVE_pyGet _ _) (fun x => ?_)
  exact noVE_ok _

theorem noVE_highwayBranch (p : ModelParams H L P) (output_layers : List (P → L))
    (t : ℕ) (h0 : H) (st : Stats) :
    NoValueError (ElasticBertModel.highwayBranch p output_layers t h0 st) := by
  unfold ElasticBertModel.highwayBranch
  refine noVE_bind _ _ (noVE_encoderForward p false h0) (fun eo => ?_)
  refine noVE_bind _ _ (noVE_pyGet _ _) (fun c1 => ?_)
  refine noVE_bind _ _ (noVE_pyGet _ _) (fun c2 => ?_)
  cases c1 <;> cases c2 <;> try exact noVE_typeError
  refine noVE_bind _ _ (noVE_gatedBranch _ _ _ _ _ _ _) (fun r => noVE_ok _)

end NoVEModel

/-- C4: `forward` raises the input-contract `ValueError`, immediately and
with no partial result, if and only if both `input_ids` and
`inputs_embeds` are supplied or neither is; when exactly one is supplied,
no `ValueError` is ever raised (any later failure is of a different error
class). -/
theorem claim_C4 {H L P Ids Emb : Type} [Inhabited H] [Inhabited L] [Inhabited P]
    (p : ModelParams H L P) (embedF : Ids ⊕ Emb → H) (training eval_highway : Bool)
    (t : ℕ) (input_ids : Option Ids) (inputs_embeds : Option Emb) (st : Stats) :
    (∃ msg, ElasticBertModel.forward p embedF training eval_highway t input_ids inputs_embeds st
        = .error (.valueError msg))
    ↔ ((input_ids.isSome = true ∧ inputs_embeds.isSome = true)
        ∨ (input_ids.isNone = true ∧ inputs_embeds.isNone = true)) := by
  cases input_ids with
  | some a =>
    cases inputs_embeds with
    | some b =>
      refine iff_of_true ?_ (Or.inl ⟨rfl, rfl⟩)
      exact ⟨"You cannot specify both input_ids and inputs_embeds at the same time", rfl⟩
    | none =>
      refine iff_of_false ?_ (by simp)
      intro ⟨msg, hmsg⟩
      have hred : ElasticBertModel.forward p embedF training eval_highway t (some a)
          (none : Option Emb) st
          = (if training then
              ElasticBertModel.trainingBranch p
                ((List.range p.num_output_layers).map p.classifier) (embedF (Sum.inl a)) st
            else if !eval_highway then
              ElasticBertModel.evalBranch p
                ((List.range p.num_output_layers).map p.classifier) (embedF (Sum.inl a)) st
            else
              ElasticBertModel.highwayBranch p
                ((List.range p.num_output_layers).map p.classifier) t (embedF (Sum.inl a)) st) := by
        rfl
      rw [hred] at hmsg
      revert hmsg
      split
      · exact noVE_trainingBranch p _ _ st msg
      · split
        · exact noVE_evalBranch p _ _ st msg
        · exact noVE_highwayBranch p _ t _ st msg
  | none =>
    cases inputs_embeds with
    | some b =>
      refine iff_of_false ?_ (by simp)
      intro ⟨msg, hmsg⟩
      have hred : ElasticBertModel.forward p embedF training eval_highway t (none : Option Ids)
          (some b) st
          = (if training then
              ElasticBertModel.trainingBranch p
                ((List.range p.num_output_layers).map p.classifier) (embedF (Sum.inr b)) st
            else if !eval_highway then
              ElasticBertModel.evalBranch p
                ((List.range p.num_output_layers).map p.classifier) (embedF (Sum.inr b)) st
            else
              ElasticBertModel.highwayBranch p
                ((List.range p.num_output_layers).map p.classifier) t (embedF (Sum.inr b)) st) := by
        rfl
      rw [hred] at hmsg
      revert hmsg
      split
      · exact noVE_trainingBranch p _ _ st msg
      · split
        · exact noVE_evalBranch p _ _ st msg
        · exact noVE_highwayBranch p _ t _ st msg
    | none =>
      refine iff_of_true ?_ (Or.inr ⟨rfl, rfl⟩)
      exact ⟨"You have to specify either input_ids or inputs_embeds", rfl⟩

end ClaimC4

section CKA

namespace ElasticBertModel

/-- `ElasticBertModel.centering` (lines 652-657): `H K H` for the n×n Gram
matrix `K`, with `H = I - unit/n` (`unit` the all-ones matrix; the Python
elementwise `unit / n` is the scalar multiple `(n : ℝ)⁻¹ • unit`). -/
noncomputable def centering {n : ℕ} (K : Matrix (Fin n) (Fin n) ℝ) : Matrix (Fin n) (Fin n) ℝ :=
  let unit : Matrix (Fin n) (Fin n) ℝ := Matrix.of fun _ _ => 1
  let I : Matrix (Fin n) (Fin n) ℝ := 1
  let Hm := I - (n : ℝ)⁻¹ • unit
  Hm * K * Hm

/-- `ElasticBertModel.linear_HSIC` (lines 672-675):
`torch.sum(centering(X Xᵀ) * centering(Y Yᵀ))`, the sum of the elementwise
product of the two centered Gram matrices. -/
noncomputable def linear_HSIC {n m : ℕ} (X Y : Matrix (Fin n) (Fin m) ℝ) : ℝ :=
  ∑ i, ∑ j, centering (X * X.transpose) i j * centering (Y * Y.transpose) i j

/-- `ElasticBertModel.linear_CKA` (lines 677-682):
`HSIC(X,Y) / (sqrt(HSIC(X,X)) * sqrt(HSIC(Y,Y)))`. -/
noncomputable def linear_CKA {n m : ℕ} (X Y : Matrix (Fin n) (Fin m) ℝ) : ℝ :=
  linear_HSIC X Y / (Real.sqrt (linear_HSIC X X) * Real.sqrt (linear_HSIC Y Y))

end ElasticBertModel

/-- C7: self-similarity of linear CKA — for every matrix `X` with
`linear_HSIC(X, X) ≠ 0`, `linear_CKA(X, X) = 1` (exactly, over the
reals). -/
theorem claim_C7 {n m : ℕ} (X : Matrix (Fin n) (Fin m) ℝ)
    (h : ElasticBertModel.linear_HSIC X X ≠ 0) : ElasticBertModel.linear_CKA X X = 1 := by
  have hnn : 0 ≤ ElasticBertModel.linear_HSIC X X := by
    unfold ElasticBertModel.linear_HSIC
    exact Finset.sum_nonneg (fun i _ => Finset.sum_nonneg (fun j _ => mul_self_nonneg _))
  unfold ElasticBertModel.linear_CKA
  rw [Real.mul_self_sqrt hnn]
  exact div_self h

theorem claim_C7_witness :
    ElasticBertModel.linear_HSIC (Matrix.of ![![(1 : ℝ)], ![0]])
      (Matrix.of ![![(1 : ℝ)], ![0]]) ≠ 0
    ∧ ElasticBertModel.linear_CKA (Matrix.of ![![(1 : ℝ)], ![0]])
      (Matrix.of ![![(1 : ℝ)], ![0]]) = 1 := by
  have hval : ElasticBertModel.linear_HSIC (Matrix.of ![![(1 : ℝ)], ![0]])
      (Matrix.of ![![(1 : ℝ)], ![0]]) = 1 / 4 := by
    unfold ElasticBertModel.linear_HSIC ElasticBertModel.centering
    simp [Matrix.mul_apply, Fin.sum_univ_two, Fin.sum_univ_one, Matrix.one_apply,
      Matrix.sub_apply, Matrix.smul_apply, Matrix.transpose_apply, Matrix.of_apply,
      Matrix.vecHead, Matrix.vecTail, Matrix.cons_val_zero, Matrix.cons_val_one,
      Matrix.head_cons, Matrix.cons_val', Matrix.empty_val', Matrix.cons_val_fin_one]
    norm_num
  have hne : ElasticBertModel.linear_HSIC (Matrix.of ![![(1 : ℝ)], ![0]])
      (Matrix.of ![![(1 : ℝ)], ![0]]) ≠ 0 := by
    rw [hval]
    norm_num
  exact ⟨hne, claim_C7 _ hne⟩

end CKA

/-- Python list comprehension `[l[ix] for ix in idxs]` (raises `IndexError`
on an out-of-range index). -/
def pySelect {α : Type} (l : List α) (idxs : List ℕ) : Except PyErr (List α) :=
  idxs.mapM (pyGet l)

noncomputable section SeqCls

open scoped Classical

/-- `F.softmax` of one row. -/
def softmaxV {n : ℕ} (v : Fin n → ℝ) : Fin n → ℝ :=
  fun c => Real.exp (v c) / ∑ d, Real.exp (v d)

/-- `F.log_softmax` of one row. -/
def log_softmaxV {n : ℕ} (v : Fin n → ℝ) : Fin n → ℝ :=
  fun c => v c - Real.log (∑ d, Real.exp (v d))

/-- `CrossEntropyLoss()` with the default mean reduction. -/
def crossEntropyLoss {B C : ℕ} (lg : Matrix (Fin B) (Fin C) ℝ) (labels : Fin B → Fin C) : ℝ :=
  (∑ b, -(log_softmaxV (lg b) (labels b))) / B

/-- `MSELoss()` with the default mean reduction (the `num_labels == 1`
regression branch, line 934). -/
def mseLoss {B C : ℕ} (lg : Matrix (Fin B) (Fin C) ℝ) (labels : Fin B → Fin C) : ℝ :=
  (∑ b, ∑ c, (lg b c - ((labels b : ℕ) : ℝ)) ^ 2) / (B * C)

/-- Per-exit label loss (lines 932-938). -/
def exitLoss {B C : ℕ} (lg : Matrix (Fin B) (Fin C) ℝ) (labels : Fin B → Fin C) : ℝ :=
  if C = 1 then mseLoss lg labels else crossEntropyLoss lg labels

/-- Teacher-difficulty score (lines 942-944): entropy-derived confidence of
the batch-mean logits, normalized by `-log(num_labels)`. -/
def difficultyVal {B C : ℕ} (lg : Matrix (Fin B) (Fin C) ℝ) : ℝ :=
  let m : Fin C → ℝ := fun c => (∑ b, lg b c) / B
  (∑ c, softmaxV m c * log_softmaxV m c) / (-Real.log C)

/-- `F.normalize(v, dim=1)` of one row (the `1e-12` guard of the Python
version is dropped in the exact-real embedding). -/
def l2normalize {n : ℕ} (v : Fin n → ℝ) : Fin n → ℝ :=
  fun d => v d / Real.sqrt (∑ e, v e ^ 2)

/-- `F.cosine_similarity` of two vectors (ε guard dropped). -/
def cosSim {n : ℕ} (u v : Fin n → ℝ) : ℝ :=
  (∑ d, u d * v d) / (Real.sqrt (∑ d, u d ^ 2) * Real.sqrt (∑ d, v d ^ 2))

/-- `ContrastiveLoss.forward` (lines 60-85) at temperature `τ` for batch
size `B`: NT-Xent over the `2B` stacked normalized rows, with the
`(i, i+B)` pairs positive and the main diagonal masked out of the
denominator. -/
def ContrastiveLoss.forward {B D : ℕ} (τ : ℝ) (emb_i emb_j : Matrix (Fin B) (Fin D) ℝ) : ℝ :=
  let z_i : Fin B → Fin D → ℝ := fun b => l2normalize (emb_i b)
  let z_j : Fin B → Fin D → ℝ := fun b => l2normalize (emb_j b)
  let reps : Fin (B + B) → Fin D → ℝ := Fin.append z_i z_j
  let sim : Fin (B + B) → Fin (B + B) → ℝ := fun r s => cosSim (reps r) (reps s)
  let positives : Fin (B + B) → ℝ := fun k =>
    if h : (k : ℕ) < B then sim k ⟨(k : ℕ) + B, by omega⟩
    else sim k ⟨(k : ℕ) - B, by have := k.isLt; omega⟩
  let nominator : Fin (B + B) → ℝ := fun k => Real.exp (positives k / τ)
  let denominator : Fin (B + B) → ℝ := fun k =>
    ∑ s, (if k = s then 0 else 1) * Real.exp (sim k s / τ)
  (∑ k, -Real.log (nominator k / denominator k)) / (2 * B)

/-- `DistillKL.forward` with `is_ca=False` (lines 88-101):
`KLDivLoss(reduction='batchmean')(log_softmax(y_s/T), softmax(y_t/T)) * T²`,
where PyTorch's KL divergence with a log-prob input `p_s` and prob target
`p_t` is `Σ p_t · (log p_t − p_s)`, batch-mean reduced. -/
def DistillKL.forward {B C : ℕ} (T : ℝ) (y_s y_t : Matrix (Fin B) (Fin C) ℝ) : ℝ :=
  let p_s : Fin B → Fin C → ℝ := fun b => log_softmaxV (fun c => y_s b c / T)
  let p_t : Fin B → Fin C → ℝ := fun b => softmaxV (fun c => y_t b c / T)
  ((∑ b, ∑ c, p_t b c * (Real.log (p_t b c) - p_s b c)) / B) * T ^ 2

/-- Python real division: raises `ZeroDivisionError` on a zero
denominator. -/
def pyDivR (a b : ℝ) : Except PyErr ℝ :=
  if b = 0 then .error .zeroDivisionError else .ok (a / b)

/-- `sorted(range(len(all_loss)), key=lambda k: all_loss[k])` (line 956):
stable ascending sort of the exit indices by their loss value. -/
def sortedByLoss (all_loss : List ℝ) : List ℕ :=
  (List.range all_loss.length).mergeSort
    (fun a b => decide (all_loss.getD a 0 ≤ all_loss.getD b 0))

/-- The incremental `total_loss` accumulation over the per-exit losses
(lines 946-949): `None` start, then set-or-add. -/
def totalLossAcc (all_loss : List ℝ) : Option ℝ :=
  all_loss.foldl (fun acc loss =>
    match acc with
    | none => some loss
    | some t => some (t + loss)) none

/-- `F.softmax` over a 1-D list of scalars (the concatenated teacher
difficulty values, line 989). -/
def softmaxList (xs : List ℝ) : List ℝ :=
  xs.map (fun x => Real.exp x / (xs.map Real.exp).sum)

/-- The contrastive-loss block (lines 967-979): accumulate
`each_con_loss * (ix+1)` over the students (the first student enters
unweighted, which coincides with its weight `0+1`), track the triangular
weight total, then divide.  With no students the accumulator is still
`None` and Python's `None / con_weights` raises `TypeError`. -/
def conLossBlock {B D : ℕ} (hidden_teacher : Matrix (Fin B) (Fin D) ℝ)
    (hidden_student : List (Matrix (Fin B) (Fin D) ℝ)) : Except PyErr ℝ :=
  let acc := hidden_student.enum.foldl (fun acc p =>
      (match acc.1 with
       | none => some (ContrastiveLoss.forward (1 / 2) hidden_teacher p.2)
       | some a => some (a + ContrastiveLoss.forward (1 / 2) hidden_teacher p.2
           * ((p.1 + 1 : ℕ) : ℝ)),
       acc.2 + p.1 + 1)) ((none : Option ℝ), (0 : ℕ))
  match acc.1 with
  | none => .error .typeError
  | some a => pyDivR a ((acc.2 : ℕ) : ℝ)

/-- One iteration of the teacher-ensemble accumulation (lines 990-995):
`ensemble = weighted * teachers_logits[ix]` on the first teacher, then
`ensemble += weighted * teachers_logits[ix]`. -/
def ensembleStep {B C : ℕ} (teachers_logits : List (Matrix (Fin B) (Fin C) ℝ))
    (acc : Option (Matrix (Fin B) (Fin C) ℝ)) (p : ℕ × ℝ) :
    Except PyErr (Option (Matrix (Fin B) (Fin C) ℝ)) := do
  let tl ← pyGet teachers_logits p.1
  match acc with
  | none => .ok (some (p.2 • tl))
  | some e => .ok (some (e + p.2 • tl))

/-- The teacher-ensemble accumulation (lines 987-995): weighted sum of the
teacher logits with the softmax-normalized difficulty weights, built
incrementally from a `None` start. -/
def ensembleBlock {B C : ℕ} (weighted_assign : List ℝ)
    (teachers_logits : List (Matrix (Fin B) (Fin C) ℝ)) :
    Except PyErr (Option (Matrix (Fin B) (Fin C) ℝ)) :=
  weighted_assign.enum.foldlM (ensembleStep teachers_logits)
    (none : Option (Matrix (Fin B) (Fin C) ℝ))

/-- `ElasticBertForSequenceClassification.forward` (lines 887-1008) in
training mode with `labels` supplied: `hidden_input` is the per-exit
pooled-representation list and `logits` the per-exit logit list returned
by the base model (lines 916-918); the function returns the total training
loss.  `torch.stack` on an empty list raises `RuntimeError`; passing the
still-`None` ensemble to `DistillKL` raises `TypeError`. -/
def ElasticBertForSequenceClassification.trainingLoss {B C D : ℕ}
    (hidden_input : List (Matrix (Fin B) (Fin D) ℝ))
    (logits : List (Matrix (Fin B) (Fin C) ℝ)) (labels : Fin B → Fin C) :
    Except PyErr ℝ := do
  let all_loss : List ℝ := logits.map (fun li => exitLoss li labels)
  let all_weighted : List ℝ := logits.map difficultyVal
  let total_loss : Option ℝ := totalLossAcc all_loss
  let sorted_id : List ℕ := sortedByLoss all_loss
  let hidden_tea ← pySelect hidden_input (sorted_id.take 6)
  let hidden_student ← pySelect hidden_input (sorted_id.drop 6)
  let hidden_teacher ← if hidden_tea.isEmpty then
      (.error .runtimeError : Except PyErr (Matrix (Fin B) (Fin D) ℝ))
    else .ok ((hidden_tea.length : ℝ)⁻¹ • hidden_tea.sum)
  let con_loss ← conLossBlock hidden_teacher hidden_student
  let teachers_logits ← pySelect logits (sorted_id.take 6)
  let tea_weighted ← pySelect all_weighted (sorted_id.take 6)
  let students_logits ← pySelect logits (sorted_id.drop 6)
  let weighted_assign : List ℝ := softmaxList tea_weighted
  let ensemble_opt ← ensembleBlock weighted_assign teachers_logits
  let ensemble_teachers_logit ← match ensemble_opt with
    | none => (.error .typeError : Except PyErr (Matrix (Fin B) (Fin C) ℝ))
    | some e => .ok e
  let loss_kd_stu_list : List ℝ :=
    students_logits.map (fun lg => DistillKL.forward 4 ensemble_teachers_logit lg)
  let distill_loss ← if loss_kd_stu_list.isEmpty then
      (.error .runtimeError : Except PyErr ℝ)
    else .ok loss_kd_stu_list.sum
  match total_loss with
  | none => .error .typeError
  | some t => .ok (t + (1 / 100) * con_loss + distill_loss)

end SeqCls

section SeqClsLemmas

theorem pySelect_ok {α : Type} (l : List α) (d : α) :
    ∀ idxs : List ℕ, (∀ i ∈ idxs, i < l.length) →
    pySelect l idxs = .ok (idxs.map (fun i => l.getD i d)) := by
  intro idxs
  induction idxs with
  | nil => intro _; rfl
  | cons i is ih =>
    intro hmem
    have hi : i < l.length := hmem i (List.mem_cons_self i is)
    have hpg : pyGet l i = .ok (l.getD i d) := by
      unfold pyGet
      rw [dif_pos hi, List.getD_eq_getElem l d hi]
      rfl
    unfold pySelect at ih ⊢
    rw [List.mapM_cons, hpg, exceptBind_ok, ih (fun j hj => hmem j (List.mem_cons_of_mem i hj)),
      exceptBind_ok]
    rfl

theorem sortedByLoss_length (all_loss : List ℝ) :
    (sortedByLoss all_loss).length = all_loss.length := by
  unfold sortedByLoss
  rw [List.length_mergeSort, List.length_range]

theorem sortedByLoss_mem (all_loss : List ℝ) (i : ℕ) (h : i ∈ sortedByLoss all_loss) :
    i < all_loss.length := by
  unfold sortedByLoss at h
  exact List.mem_range.mp ((List.mergeSort_perm (List.range all_loss.length) _).mem_iff.mp h)

theorem sortedByLoss_sorted (all_loss : List ℝ) :
    List.Pairwise (fun a b => all_loss.getD a 0 ≤ all_loss.getD b 0) (sortedByLoss all_loss) := by
  unfold sortedByLoss
  refine List.Pairwise.imp ?_ (List.sorted_mergeSort ?_ ?_ (List.range all_loss.length))
  · intro a b hab
    exact of_decide_eq_true hab
  · intro a b c hab hbc
    simp only [decide_eq_true_eq] at hab hbc ⊢
    exact le_trans hab hbc
  · intro a b
    simp only [Bool.or_eq_true, decide_eq_true_eq]
    exact le_total _ _

/-- Every teacher's loss is at most every student's loss. -/
theorem sortedByLoss_take_drop_le (all_loss : List ℝ) (k : ℕ) :
    ∀ a ∈ (sortedByLoss all_loss).take k, ∀ b ∈ (sortedByLoss all_loss).drop k,
      all_loss.getD a 0 ≤ all_loss.getD b 0 := by
  have hs := sortedByLoss_sorted all_loss
  rw [← List.take_append_drop k (sortedByLoss all_loss)] at hs
  exact (List.pairwise_append.mp hs).2.2

theorem totalLossAcc_go (l : List ℝ) :
    ∀ t : ℝ, l.foldl (fun acc loss =>
      match acc with
      | none => some loss
      | some u => some (u + loss)) (some t) = some (t + l.sum) := by
  induction l with
  | nil => intro t; simp
  | cons x xs ih =>
    intro t
    simp only [List.foldl_cons]
    rw [ih, List.sum_cons]
    rw [Option.some.injEq]
    ring

theorem totalLossAcc_eq (l : List ℝ) (h : l ≠ []) : totalLossAcc l = some l.sum := by
  cases l with
  | nil => cases h rfl
  | cons x xs =>
    unfold totalLossAcc
    simp only [List.foldl_cons]
    rw [totalLossAcc_go, List.sum_cons]

theorem conLossBlock_go {B D : ℕ} (ht : Matrix (Fin B) (Fin D) ℝ) :
    ∀ (l : List (Matrix (Fin B) (Fin D) ℝ)) (n : ℕ) (a : ℝ) (w : ℕ),
    (List.enumFrom n l).foldl (fun acc p =>
      (match acc.1 with
       | none => some (ContrastiveLoss.forward (1 / 2) ht p.2)
       | some a => some (a + ContrastiveLoss.forward (1 / 2) ht p.2 * ((p.1 + 1 : ℕ) : ℝ)),
       acc.2 + p.1 + 1)) ((some a : Option ℝ), w)
    = (some (a + ((List.enumFrom n l).map
          (fun p => ContrastiveLoss.forward (1 / 2) ht p.2 * ((p.1 + 1 : ℕ) : ℝ))).sum),
       w + ((List.enumFrom n l).map (fun p => p.1 + 1)).sum) := by
  intro l
  induction l with
  | nil => intro n a w; simp
  | cons x xs ih =>
    intro n a w
    rw [List.enumFrom_cons]
    simp only [List.foldl_cons, List.map_cons, List.sum_cons]
    rw [ih]
    refine Prod.ext ?_ ?_
    · simp only [Option.some.injEq]
      ring
    · simp only
      omega

/-- Characterization of the contrastive block on a nonempty student list:
the weighted sum of the per-student NT-Xent losses divided by the
triangular weight total. -/
theorem conLossBlock_char {B D : ℕ} (ht : Matrix (Fin B) (Fin D) ℝ)
    (l : List (Matrix (Fin B) (Fin D) ℝ)) (h : l ≠ []) :
    conLossBlock ht l
      = .ok (((l.enum.map
            (fun p => ContrastiveLoss.forward (1 / 2) ht p.2 * ((p.1 + 1 : ℕ) : ℝ))).sum)
          / (((l.enum.map (fun p => p.1 + 1)).sum : ℕ) : ℝ)) := by
  cases l with
  | nil => cases h rfl
  | cons x xs =>
    unfold conLossBlock
    rw [List.enum_cons]
    simp only [List.foldl_cons]
    rw [conLossBlock_go]
    have hw : (0 + 0 + 1) + ((List.enumFrom 1 xs).map (fun p => p.1 + 1)).sum
        = ((((0, x) :: List.enumFrom 1 xs).map (fun p => p.1 + 1)).sum) := by
      simp only [List.map_cons, List.sum_cons]
    have hwpos : 1 ≤ (0 + 0 + 1) + ((List.enumFrom 1 xs).map (fun p => p.1 + 1)).sum := by
      omega
    simp only [List.map_cons, List.sum_cons]
    unfold pyDivR
    rw [if_neg (by
      have : ((0 + 0 + 1) + ((List.enumFrom 1 xs).map (fun p => p.1 + 1)).sum : ℕ) ≠ 0 := by
        omega
      exact_mod_cast this)]
    norm_num

end SeqClsLemmas

section SeqClsLemmas2

theorem pyGet_getD {α : Type} (l : List α) (d : α) (i : ℕ) (hi : i < l.length) :
    pyGet l i = .ok (l.getD i d) := by
  unfold pyGet
  rw [dif_pos hi, List.getD_eq_getElem l d hi]
  rfl

theorem ensembleBlock_go {B C : ℕ} (tl : List (Matrix (Fin B) (Fin C) ℝ)) :
    ∀ (l : List ℝ) (n : ℕ), (∀ k, k < l.length → n + k < tl.length) →
    ∀ E : Matrix (Fin B) (Fin C) ℝ,
    (List.enumFrom n l).foldlM (ensembleStep tl) (some E)
      = .ok (some (E + ((List.enumFrom n l).map (fun p => p.2 • tl.getD p.1 0)).sum)) := by
  intro l
  induction l with
  | nil =>
    intro n _ E
    simp only [List.enumFrom_nil, List.foldlM_nil, List.map_nil, List.sum_nil, add_zero]
    rfl
  | cons x xs ih =>
    intro n hrange E
    rw [List.enumFrom_cons, List.foldlM_cons]
    have hn : n < tl.length := by
      have := hrange 0 (by simp)
      omega
    have hstep : ensembleStep tl (some E) (n, x) = .ok (some (E + x • tl.getD n 0)) := by
      unfold ensembleStep
      rw [pyGet_getD tl 0 n hn, exceptBind_ok]
    rw [hstep, exceptBind_ok]
    rw [ih (n + 1) (by intro k hk; have := hrange (k + 1) (by simp; omega); omega)
      (E + x • tl.getD n 0)]
    simp only [List.map_cons, List.sum_cons, Except.ok.injEq, Option.some.injEq]
    rw [add_assoc]

/-- Characterization of the ensemble accumulation on a nonempty weight
list whose length is at most the teacher-logit count. -/
theorem ensembleBlock_char {B C : ℕ} (wa : List ℝ) (tl : List (Matrix (Fin B) (Fin C) ℝ))
    (hne : wa ≠ []) (hlen : wa.length ≤ tl.length) :
    ensembleBlock wa tl = .ok (some ((wa.enum.map (fun p => p.2 • tl.getD p.1 0)).sum)) := by
  cases wa with
  | nil => cases hne rfl
  | cons x xs =>
    unfold ensembleBlock
    rw [List.enum_cons, List.foldlM_cons]
    have h0 : 0 < tl.length := by
      simp only [List.length_cons] at hlen
      omega
    have hstep : ensembleStep tl none (0, x) = .ok (some (x • tl.getD 0 0)) := by
      unfold ensembleStep
      rw [pyGet_getD tl 0 0 h0, exceptBind_ok]
    rw [hstep, exceptBind_ok]
    rw [ensembleBlock_go tl xs 1 (by
      intro k hk
      simp only [List.length_cons] at hlen
      omega) (x • tl.getD 0 0)]
    simp only [List.map_cons, List.sum_cons]

/-- With at most six exits the student set is empty and the contrastive
block receives an empty list, so the training-loss computation raises
(`None / con_weights`, a `TypeError`). -/
theorem trainingLoss_students_empty {B C D : ℕ}
    (hidden_input : List (Matrix (Fin B) (Fin D) ℝ))
    (logits : List (Matrix (Fin B) (Fin C) ℝ)) (labels : Fin B → Fin C)
    (hK1 : 1 ≤ logits.length) (hK6 : logits.length ≤ 6)
    (hlen : hidden_input.length = logits.length) :
    ElasticBertForSequenceClassification.trainingLoss hidden_input logits labels
      = .error .typeError := by
  unfold ElasticBertForSequenceClassification.trainingLoss
  dsimp only
  have hLlen : (logits.map (fun li => exitLoss li labels)).length = logits.length :=
    List.length_map _ _
  have hslen : (sortedByLoss (logits.map (fun li => exitLoss li labels))).length
      = logits.length := by
    rw [sortedByLoss_length, hLlen]
  have hdrop : (sortedByLoss (logits.map (fun li => exitLoss li labels))).drop 6 = [] :=
    List.drop_eq_nil_of_le (by omega)
  have htake_mem : ∀ i ∈ (sortedByLoss (logits.map (fun li => exitLoss li labels))).take 6,
      i < hidden_input.length := by
    intro i hi
    have := sortedByLoss_mem _ i (List.mem_of_mem_take hi)
    omega
  rw [pySelect_ok hidden_input 0 _ htake_mem, exceptBind_ok, hdrop,
    pySelect_ok hidden_input 0 [] (by intro i hi; cases hi), exceptBind_ok]
  have htne : (((sortedByLoss (logits.map (fun li => exitLoss li labels))).take 6).map
      (fun i => hidden_input.getD i 0)).isEmpty = false := by
    have h0 : (((sortedByLoss (logits.map (fun li => exitLoss li labels))).take 6).map
        (fun i => hidden_input.getD i 0)) ≠ [] := by
      intro hnil
      have hln := congrArg List.length hnil
      rw [List.length_map, List.length_take, hslen] at hln
      simp only [List.length_nil] at hln
      omega
    cases hq : (((sortedByLoss (logits.map (fun li => exitLoss li labels))).take 6).map
        (fun i => hidden_input.getD i 0)).isEmpty
    · rfl
    · exact absurd (List.isEmpty_iff.mp hq) h0
  have hcnil : ∀ ht : Matrix (Fin B) (Fin D) ℝ, conLossBlock ht [] = .error .typeError :=
    fun _ => rfl
  simp only [htne, Bool.false_eq_true, if_false, List.map_nil, exceptBind_ok, hcnil,
    exceptBind_error]

end SeqClsLemmas2

section ClaimC5

/-- C5 (amended): the exits with the `min 6 K` lowest losses are
designated teachers (every teacher's loss is bounded by every student's
loss, for every list of per-exit loss values); when `K ≤ 6` all exits are
teachers and the student set is empty, but then the forward call does not
complete: the contrastive block divides the still-`None` accumulator and
raises a `TypeError` instead of returning a loss. -/
theorem claim_C5 :
    (∀ (B C : ℕ) (logits : List (Matrix (Fin B) (Fin C) ℝ)) (labels : Fin B → Fin C),
      ((sortedByLoss (logits.map (fun li => exitLoss li labels))).take 6).length
        = min 6 logits.length
      ∧ ∀ tIx ∈ (sortedByLoss (logits.map (fun li => exitLoss li labels))).take 6,
        ∀ sIx ∈ (sortedByLoss (logits.map (fun li => exitLoss li labels))).drop 6,
          (logits.map (fun li => exitLoss li labels)).getD tIx 0
            ≤ (logits.map (fun li => exitLoss li labels)).getD sIx 0)
    ∧ (∀ (B C D : ℕ) (hidden_input : List (Matrix (Fin B) (Fin D) ℝ))
        (logits : List (Matrix (Fin B) (Fin C) ℝ)) (labels : Fin B → Fin C),
        1 ≤ logits.length → logits.length ≤ 6 → hidden_input.length = logits.length →
        ElasticBertForSequenceClassification.trainingLoss hidden_input logits labels
          = .error .typeError) := by
  constructor
  · intro B C logits labels
    constructor
    · rw [List.length_take, sortedByLoss_length, List.length_map]
    · exact sortedByLoss_take_drop_le _ 6
  · intro B C D hidden_input logits labels h1 h6 hlen
    exact trainingLoss_students_empty hidden_input logits labels h1 h6 hlen

/-- C5 (counterexample): with exactly 6 exits the training forward call
does not complete with a finite loss — it raises (`None / con_weights`). -/
theorem claim_C5_counterexample :
    ElasticBertForSequenceClassification.trainingLoss
      (List.replicate 6 (0 : Matrix (Fin 1) (Fin 1) ℝ))
      (List.replicate 6 (0 : Matrix (Fin 1) (Fin 2) ℝ)) (fun _ => 0)
      = .error .typeError :=
  trainingLoss_students_empty _ _ _ (by simp) (by simp) (by simp)

theorem claim_C5_witness :
    1 ≤ (List.replicate 6 (0 : Matrix (Fin 1) (Fin 2) ℝ)).length
    ∧ (List.replicate 6 (0 : Matrix (Fin 1) (Fin 2) ℝ)).length ≤ 6
    ∧ ElasticBertForSequenceClassification.trainingLoss
        (List.replicate 6 (0 : Matrix (Fin 2) (Fin 3) ℝ))
        (List.replicate 6 (0 : Matrix (Fin 2) (Fin 2) ℝ)) (fun _ => 0) = .error .typeError :=
  ⟨by simp, by simp,
   claim_C5.2 2 2 3 (List.replicate 6 0) (List.replicate 6 0) (fun _ => 0)
     (by simp) (by simp) (by simp)⟩

end ClaimC5

section ClaimC9

/-- C9: with labels supplied, in training mode, with more than 6 exits, the
returned total loss is the sum of the per-exit classification
(cross-entropy) losses, plus `0.01` times the contrastive loss, plus the
distillation loss, where the distillation loss is the sum — not the
average — over the students of `DistillKL` at temperature 4 (which scales
by `T²`) against the weighted teacher-ensemble logits. -/
theorem claim_C9 {B C D : ℕ} (hidden_input : List (Matrix (Fin B) (Fin D) ℝ))
    (logits : List (Matrix (Fin B) (Fin C) ℝ)) (labels : Fin B → Fin C)
    (hC : C ≠ 1) (hK : 6 < logits.length) (hlen : hidden_input.length = logits.length) :
    ElasticBertForSequenceClassification.trainingLoss hidden_input logits labels
      = .ok
        (let all_loss := logits.map (fun li => crossEntropyLoss li labels)
         let sorted_id := sortedByLoss all_loss
         let hidden_tea := (sorted_id.take 6).map (fun i => hidden_input.getD i 0)
         let hidden_teacher := ((hidden_tea.length : ℝ))⁻¹ • hidden_tea.sum
         let hidden_student := (sorted_id.drop 6).map (fun i => hidden_input.getD i 0)
         let con_loss :=
           ((hidden_student.enum.map (fun p =>
              ContrastiveLoss.forward (1 / 2) hidden_teacher p.2 * ((p.1 + 1 : ℕ) : ℝ))).sum)
           / (((hidden_student.enum.map (fun p => p.1 + 1)).sum : ℕ) : ℝ)
         let teachers_logits := (sorted_id.take 6).map (fun i => logits.getD i 0)
         let weighted_assign := softmaxList ((sorted_id.take 6).map
              (fun i => (logits.map difficultyVal).getD i 0))
         let ensemble := (weighted_assign.enum.map
              (fun p => p.2 • teachers_logits.getD p.1 0)).sum
         let students_logits := (sorted_id.drop 6).map (fun i => logits.getD i 0)
         all_loss.sum + 1 / 100 * con_loss
           + (students_logits.map (fun lg => DistillKL.forward 4 ensemble lg)).sum) := by
  unfold ElasticBertForSequenceClassification.trainingLoss
  dsimp only
  simp only [exitLoss, if_neg hC]
  have hALlen : (logits.map (fun li => crossEntropyLoss li labels)).length = logits.length :=
    List.length_map _ _
  have hslen : (sortedByLoss (logits.map (fun li => crossEntropyLoss li labels))).length
      = logits.length := by
    rw [sortedByLoss_length, hALlen]
  have hmemS : ∀ i ∈ sortedByLoss (logits.map (fun li => crossEntropyLoss li labels)),
      i < logits.length := by
    intro i hi
    have := sortedByLoss_mem _ i hi
    omega
  have htakeH : ∀ i ∈ (sortedByLoss (logits.map (fun li => crossEntropyLoss li labels))).take 6,
      i < hidden_input.length := by
    intro i hi
    have := hmemS i (List.mem_of_mem_take hi)
    omega
  have hdropH : ∀ i ∈ (sortedByLoss (logits.map (fun li => crossEntropyLoss li labels))).drop 6,
      i < hidden_input.length := by
    intro i hi
    have := hmemS i (List.mem_of_mem_drop hi)
    omega
  have htakeL : ∀ i ∈ (sortedByLoss (logits.map (fun li => crossEntropyLoss li labels))).take 6,
      i < logits.length := fun i hi => hmemS i (List.mem_of_mem_take hi)
  have hdropL : ∀ i ∈ (sortedByLoss (logits.map (fun li => crossEntropyLoss li labels))).drop 6,
      i < logits.length := fun i hi => hmemS i (List.mem_of_mem_drop hi)
  have htakeW : ∀ i ∈ (sortedByLoss (logits.map (fun li => crossEntropyLoss li labels))).take 6,
      i < (logits.map difficultyVal).length := by
    intro i hi
    rw [List.length_map]
    exact htakeL i hi
  have htklen : ((sortedByLoss (logits.map (fun li => crossEntropyLoss li labels))).take 6).length
      = 6 := by
    rw [List.length_take, hslen]
    omega
  have hdplen : ((sortedByLoss (logits.map (fun li => crossEntropyLoss li labels))).drop 6).length
      = logits.length - 6 := by
    rw [List.length_drop, hslen]
  rw [pySelect_ok hidden_input 0 _ htakeH, exceptBind_ok,
    pySelect_ok hidden_input 0 _ hdropH, exceptBind_ok]
  have htne : (((sortedByLoss (logits.map (fun li => crossEntropyLoss li labels))).take 6).map
      (fun i => hidden_input.getD i 0)).isEmpty = false := by
    have h0 : (((sortedByLoss (logits.map (fun li => crossEntropyLoss li labels))).take 6).map
        (fun i => hidden_input.getD i 0)) ≠ [] := by
      intro hnil
      have hln := congrArg List.length hnil
      rw [List.length_map, htklen] at hln
      simp at hln
    cases hq : (((sortedByLoss (logits.map (fun li => crossEntropyLoss li labels))).take 6).map
        (fun i => hidden_input.getD i 0)).isEmpty
    · rfl
    · exact absurd (List.isEmpty_iff.mp hq) h0
  simp only [htne, Bool.false_eq_true, if_false, exceptBind_ok]
  have hstud_ne : (((sortedByLoss (logits.map (fun li => crossEntropyLoss li labels))).drop 6).map
      (fun i => hidden_input.getD i 0)) ≠ [] := by
    intro hnil
    have hln := congrArg List.length hnil
    rw [List.length_map, hdplen] at hln
    simp only [List.length_nil] at hln
    omega
  rw [conLossBlock_char _ _ hstud_ne, exceptBind_ok]
  rw [pySelect_ok logits 0 _ htakeL, exceptBind_ok,
    pySelect_ok (logits.map difficultyVal) 0 _ htakeW, exceptBind_ok,
    pySelect_ok logits 0 _ hdropL, exceptBind_ok]
  have hwa_ne : softmaxList (((sortedByLoss
      (logits.map (fun li => crossEntropyLoss li labels))).take 6).map
      (fun i => (logits.map difficultyVal).getD i 0)) ≠ [] := by
    intro hnil
    have hln := congrArg List.length hnil
    unfold softmaxList at hln
    rw [List.length_map, List.length_map, htklen] at hln
    simp at hln
  have hwa_le : (softmaxList (((sortedByLoss
      (logits.map (fun li => crossEntropyLoss li labels))).take 6).map
      (fun i => (logits.map difficultyVal).getD i 0))).length
      ≤ (((sortedByLoss (logits.map (fun li => crossEntropyLoss li labels))).take 6).map
        (fun i => logits.getD i 0)).length := by
    unfold softmaxList
    rw [List.length_map, List.length_map, List.length_map]
  rw [ensembleBlock_char _ _ hwa_ne hwa_le, exceptBind_ok]
  dsimp only
  have hkdne : ((((sortedByLoss (logits.map (fun li => crossEntropyLoss li labels))).drop 6).map
      (fun i => logits.getD i 0)).map (fun lg => DistillKL.forward 4
        ((softmaxList (((sortedByLoss (logits.map (fun li => crossEntropyLoss li labels))).take
          6).map (fun i => (logits.map difficultyVal).getD i 0))).enum.map
          (fun p => p.2 • ((((sortedByLoss (logits.map (fun li =>
            crossEntropyLoss li labels))).take 6).map (fun i => logits.getD i 0)).getD p.1
            0))).sum lg)).isEmpty = false := by
    have h0 : ((((sortedByLoss (logits.map (fun li =>
        crossEntropyLoss li labels))).drop 6).map (fun i => logits.getD i 0)).length) ≠ 0 := by
      rw [List.length_map, hdplen]
      omega
    cases hq : ((((sortedByLoss (logits.map (fun li =>
        crossEntropyLoss li labels))).drop 6).map (fun i => logits.getD i 0)).map
        (fun lg => DistillKL.forward 4 _ lg)).isEmpty
    · rfl
    · exfalso
      have := List.isEmpty_iff.mp hq
      have hln := congrArg List.length this
      rw [List.length_map, List.length_map, hdplen] at hln
      simp only [List.length_nil] at hln
      omega
  rw [hkdne]
  simp only [Bool.false_eq_true, if_false, exceptBind_ok]
  have hALne : (logits.map (fun li => crossEntropyLoss li labels)) ≠ [] := by
    intro hnil
    have hln := congrArg List.length hnil
    rw [hALlen] at hln
    simp only [List.length_nil] at hln
    omega
  rw [totalLossAcc_eq _ hALne]

end ClaimC9

theorem claim_C9_witness :
    (2 : ℕ) ≠ 1
    ∧ 6 < (List.replicate 7 (0 : Matrix (Fin 1) (Fin 2) ℝ)).length
    ∧ (List.replicate 7 (0 : Matrix (Fin 1) (Fin 1) ℝ)).length
        = (List.replicate 7 (0 : Matrix (Fin 1) (Fin 2) ℝ)).length
    ∧ ∃ r : ℝ, ElasticBertForSequenceClassification.trainingLoss
        (List.replicate 7 (0 : Matrix (Fin 1) (Fin 1) ℝ))
        (List.replicate 7 (0 : Matrix (Fin 1) (Fin 2) ℝ)) (fun _ => 0) = .ok r :=
  ⟨by decide, by simp, by simp,
   ⟨_, claim_C9 (List.replicate 7 0) (List.replicate 7 0) (fun _ => 0)
      (by decide) (by simp) (by simp)⟩⟩
